import Mathlib

/-!
Shallow embedding of the INSAMAR sales dashboard pipeline (`src/app.py`):
the schema normalizer (`_safe_col`, `load_data_from_excel`), the row
filter (`mask`), the KPI ratios (`avg_ticket`, `TicketPromCLP`) and the
groupby aggregations (`summary`, `ts`).

Modelling conventions:
* pandas cell values are `Cell`: a value that parses as a date, a value
  that parses as a number (rationals stand in for floats), other text, or
  a missing value (`NaN`/`NaT`).
* A DataFrame is an ordered column-name list plus rows of cells
  (positional, one cell per column).
* Python `str.lower` is `Char.toLower` mapped over the characters, and
  Python's substring test `a in b` is `containsSub`.
* `pd.to_datetime(..., errors="coerce")` keeps date-parseable cells and
  turns everything else into a missing value; `pd.to_numeric(...,
  errors="coerce").fillna(0)` turns non-numeric cells into `0`.
-/

namespace Insamar

/-- Python `s.lower()` viewed as a character list (`Char.toLower` is the
ASCII lowercasing used for the header comparisons). -/
def lowerL (s : String) : List Char := s.data.map Char.toLower

/-- Python `needle in hay` (contiguous-substring test) on character
lists. -/
def containsSub (needle : List Char) : List Char → Bool
  | [] => needle.isEmpty
  | c :: rest => needle.isPrefixOf (c :: rest) || containsSub needle rest

/-- Python `cols = {c.lower(): c for c in df.columns}` followed by the
lookup `cols.get(key)`: for a given lowercased key the dict retains the
last column whose lowercasing equals it. -/
def lowerDictGet (columns : List String) (key : List Char) : Option String :=
  (columns.filter (fun c => lowerL c == key)).getLast?

/-- Model of `_safe_col(df, candidates)` from `src/app.py`: first a
case-insensitive exact match of each candidate (in order) against the
column names, then a case-insensitive substring scan (candidates outer,
columns inner), else `None`. -/
def safe_col (columns candidates : List String) : Option String :=
  match candidates.findSome? (fun cand => lowerDictGet columns (lowerL cand)) with
  | some c => some c
  | none =>
      candidates.findSome? (fun cand =>
        columns.find? (fun c => containsSub (lowerL cand) (lowerL c)))

/-- Candidate list for the date column. -/
def dateCands : List String := ["Fecha de contabilización", "Fecha"]

/-- Candidate list for `Documento`. -/
def docCands : List String := ["Número interno", "Numero interno", "DocNum", "Documento"]

/-- Candidate list for `CodCliente`. -/
def codCliCands : List String := ["Código de cliente/proveedor", "Codigo de cliente", "CardCode"]

/-- Candidate list for `Cliente`. -/
def cliCands : List String := ["Nombre de cliente/proveedor", "Nombre de cliente", "CardName"]

/-- Candidate list for `Vendedor`. -/
def vendCands : List String := ["SlpName", "Vendedor", "Ejecutivo"]

/-- Candidate list for `ItemCode`. -/
def itemCands : List String := ["ItemCode", "Codigo item", "Item"]

/-- Candidate list for `Producto`. -/
def prodCands : List String := ["Dscription", "Descripcion", "Description"]

/-- Candidate list for `Cantidad`. -/
def cantCands : List String := ["Quantity", "Cantidad"]

/-- Candidate list for `PrecioUnit`. -/
def precioCands : List String := ["Price", "Precio"]

/-- Candidate list for `VentaCLP`. -/
def ventaCands : List String := ["Venta", "Total", "Monto"]

/-- The `required` list of `load_data_from_excel`. -/
def requiredCols : List String :=
  ["Fecha", "Documento", "Cliente", "Vendedor", "Producto", "Cantidad", "PrecioUnit", "VentaCLP"]

/-- A calendar date (year, month, day). -/
structure DateVal where
  y : Nat
  m : Nat
  d : Nat
deriving DecidableEq

/-- Chronological comparison of dates, as a boolean. -/
def DateVal.leB (a b : DateVal) : Bool :=
  decide (a.y < b.y) ||
    (decide (a.y = b.y) &&
      (decide (a.m < b.m) || (decide (a.m = b.m) && decide (a.d ≤ b.d))))

/-- Model of `to_period("M").astype(str)`: the "YYYY-MM" month bucket. -/
def mesStr (dv : DateVal) : String :=
  toString dv.y ++ "-" ++ (if dv.m < 10 then "0" ++ toString dv.m else toString dv.m)

/-- Model of `to_period("Q").astype(str)`: the "YYYYQn" quarter bucket. -/
def triStr (dv : DateVal) : String :=
  toString dv.y ++ "Q" ++ toString ((dv.m + 2) / 3)

/-- One spreadsheet cell: a date-parseable value, a numeric value, other
text, or a missing value (`NaN`/`NaT`). -/
inductive Cell where
  | date (d : DateVal)
  | num (q : ℚ)
  | text (s : String)
  | empty
deriving DecidableEq

/-- Does the cell hold a (parsed) date? -/
def Cell.isDate : Cell → Bool
  | .date _ => true
  | _ => false

/-- Numeric reading of a cell, when it has one. -/
def Cell.toNum : Cell → Option ℚ
  | .num q => some q
  | _ => none

/-- Does the cell hold a numeric value? -/
def Cell.isNum : Cell → Bool
  | .num _ => true
  | _ => false

/-- Model of `pd.to_datetime(x, errors="coerce")` on one cell: keep parsed dates,
coerce everything else to missing (`NaT`). -/
def coerceDateCell : Cell → Cell
  | .date d => .date d
  | _ => .empty

/-- Model of `pd.to_numeric(x, errors="coerce").fillna(0)` on one cell: keep
numbers, everything else becomes `0`. -/
def coerceNumCell (c : Cell) : Cell := .num (c.toNum.getD 0)

/-- A DataFrame: ordered column names and positional rows of cells. -/
structure DF where
  cols : List String
  rows : List (List Cell)
deriving DecidableEq

/-- Index of the first column with the given name. -/
def DF.idxOf (df : DF) (name : String) : Option Nat := df.cols.findIdx? (· = name)

/-- The table is rectangular: every row has one cell per column. -/
def DF.Rect (df : DF) : Prop := ∀ r ∈ df.rows, r.length = df.cols.length

instance (df : DF) : Decidable df.Rect := by
  unfold DF.Rect
  infer_instance

/-- The cell of a row at a column index (missing when out of range). -/
def cellAt (r : List Cell) (i : Nat) : Cell := r.getD i .empty

/-- Apply a cell transformation to the column at index `i`. -/
def DF.mapColAt (df : DF) (i : Nat) (f : Cell → Cell) : DF :=
  ⟨df.cols, df.rows.map (fun r => r.set i (f (cellAt r i)))⟩

/-- Model of `df[name] = pd.to_datetime(df[name], errors="coerce")`. -/
def DF.coerceDateByName (df : DF) (name : String) : DF :=
  match df.idxOf name with
  | some i => df.mapColAt i coerceDateCell
  | none => df

/-- Model of `df = df[df[name].notna()]` for a date-coerced column. -/
def DF.filterDateByName (df : DF) (name : String) : DF :=
  match df.idxOf name with
  | some i => ⟨df.cols, df.rows.filter (fun r => (cellAt r i).isDate)⟩
  | none => df

/-- Model of `df.rename(columns={a: b})`: every column named `a` becomes `b`. -/
def DF.renameOne (df : DF) (a b : String) : DF :=
  ⟨df.cols.map (fun c => if c = a then b else c), df.rows⟩

/-- Model of `df[name].notna().any()` for a date-coerced column. -/
def DF.anyDateByName (df : DF) (name : String) : Bool :=
  match df.idxOf name with
  | some i => df.rows.any (fun r => (cellAt r i).isDate)
  | none => false

/-- The `for c in df.columns:` fallback loop of `load_data_from_excel`:
coerce each column whose name contains "fecha", adopt the first one with
at least one parsed date (rename it `Fecha` and drop unparsed rows). -/
def fallbackLoop (df : DF) : List String → DF
  | [] => df
  | c :: rest =>
      if containsSub (lowerL "fecha") (lowerL c) then
        let df1 := df.coerceDateByName c
        if df1.anyDateByName c then
          (df1.renameOne c "Fecha").filterDateByName "Fecha"
        else fallbackLoop df1 rest
      else fallbackLoop df rest

/-- The date-resolution stage of `load_data_from_excel`: resolve the date
column, coerce it, drop rows that fail to parse, rename it `Fecha`; when
the resolver fails, run the fallback scan. -/
def dateStage (df : DF) : DF :=
  match safe_col df.cols dateCands with
  | some cd => ((df.coerceDateByName cd).filterDateByName cd).renameOne cd "Fecha"
  | none => fallbackLoop df df.cols

/-- The date-resolution stage with the fallback branch removed (the
variant compared against `dateStage` for the refinement claim). -/
def dateStageNoFallback (df : DF) : DF :=
  match safe_col df.cols dateCands with
  | some cd => ((df.coerceDateByName cd).filterDateByName cd).renameOne cd "Fecha"
  | none => df

/-- The nine `rename_map[_safe_col(df, ...)] = ...` assignments, in
source order. -/
def assignmentsOf (cols : List String) : List (Option String × String) :=
  [ (safe_col cols docCands, "Documento"),
    (safe_col cols codCliCands, "CodCliente"),
    (safe_col cols cliCands, "Cliente"),
    (safe_col cols vendCands, "Vendedor"),
    (safe_col cols itemCands, "ItemCode"),
    (safe_col cols prodCands, "Producto"),
    (safe_col cols cantCands, "Cantidad"),
    (safe_col cols precioCands, "PrecioUnit"),
    (safe_col cols ventaCands, "VentaCLP") ]

/-- Model of `rename_map = {k: v for k, v in rename_map.items() if k is not None}`:
drop the `None` keys, keep the assignment order. -/
def renameMapOf (cols : List String) : List (String × String) :=
  (assignmentsOf cols).filterMap (fun p => p.1.map (fun k => (k, p.2)))

/-- Python dict lookup for the assignment list: a later assignment to the
same key overwrites an earlier one. -/
def dictLookup (m : List (String × String)) (k : String) : Option String :=
  m.reverse.lookup k

/-- Model of `df.rename(columns=rename_map)` on the column names. -/
def applyRename (cols : List String) (m : List (String × String)) : List String :=
  cols.map (fun c => (dictLookup m c).getD c)

/-- The rename stage of `load_data_from_excel`. -/
def renameStage (df : DF) : DF :=
  ⟨applyRename df.cols (renameMapOf df.cols), df.rows⟩

/-- Model of `missing = [c for c in required if c not in df.columns]`. -/
def missingOf (cols : List String) : List String :=
  requiredCols.filter (fun c => !(cols.contains c))

/-- Model of `df[name] = pd.to_numeric(df[name], errors="coerce").fillna(0)`.
The model addresses the first column with the label; when post-rename
labels are duplicated, pandas' `df[name]` returns a two-column frame
and `pd.to_numeric` raises `TypeError`, an error path outside the cell
model — the claims that would be sensitive to it carry a `Nodup`
hypothesis on the post-rename columns. -/
def DF.coerceNumByName (df : DF) (name : String) : DF :=
  match df.idxOf name with
  | some i => df.mapColAt i coerceNumCell
  | none => df

/-- The three numeric coercions of `load_data_from_excel`. -/
def coerceNums (df : DF) : DF :=
  ((df.coerceNumByName "Cantidad").coerceNumByName "PrecioUnit").coerceNumByName "VentaCLP"

/-- Model of `df[name] = <per-row value>`: overwrite the column in place when it
exists, append it at the end otherwise (pandas column assignment). -/
def DF.setColFn (df : DF) (name : String) (f : List Cell → Cell) : DF :=
  match df.idxOf name with
  | some i => ⟨df.cols, df.rows.map (fun r => r.set i (f r))⟩
  | none => ⟨df.cols ++ [name], df.rows.map (fun r => r ++ [f r])⟩

/-- Invariant carried through the tail of the pipeline: the table is
rectangular, the four key columns sit at the given indices, and every
row has a parsed date and numeric amounts there. -/
def GoodDF (d : DF) (i0 qi pi vi : Nat) : Prop :=
  d.Rect ∧
  d.cols.findIdx? (· = "Fecha") = some i0 ∧
  d.cols.findIdx? (· = "Cantidad") = some qi ∧
  d.cols.findIdx? (· = "PrecioUnit") = some pi ∧
  d.cols.findIdx? (· = "VentaCLP") = some vi ∧
  ∀ r ∈ d.rows, (cellAt r i0).isDate = true ∧ (cellAt r qi).isNum = true ∧
    (cellAt r pi).isNum = true ∧ (cellAt r vi).isNum = true

/-- Model of `df["Año"] = df["Fecha"].dt.year` (`NaN` on a non-date cell). -/
def deriveAno (df : DF) : DF :=
  let fi := (df.idxOf "Fecha").getD 0
  df.setColFn "Año" (fun r =>
    match cellAt r fi with
    | .date d => .num (d.y : ℚ)
    | _ => .empty)

/-- Model of `df["Mes"] = df["Fecha"].dt.to_period("M").astype(str)`. -/
def deriveMes (df : DF) : DF :=
  let fi := (df.idxOf "Fecha").getD 0
  df.setColFn "Mes" (fun r =>
    match cellAt r fi with
    | .date d => .text (mesStr d)
    | _ => .empty)

/-- Model of `df["Trimestre"] = df["Fecha"].dt.to_period("Q").astype(str)`. -/
def deriveTri (df : DF) : DF :=
  let fi := (df.idxOf "Fecha").getD 0
  df.setColFn "Trimestre" (fun r =>
    match cellAt r fi with
    | .date d => .text (triStr d)
    | _ => .empty)

/-- Model of `df["TicketPromCLP"] = np.where(df["Cantidad"] > 0,
df["VentaCLP"] / df["Cantidad"], np.nan)`. -/
def deriveTicket (df : DF) : DF :=
  let qi := (df.idxOf "Cantidad").getD 0
  let vi := (df.idxOf "VentaCLP").getD 0
  df.setColFn "TicketPromCLP" (fun r =>
    match (cellAt r qi).toNum, (cellAt r vi).toNum with
    | some q, some v => if 0 < q then .num (v / q) else .empty
    | _, _ => .empty)

/-- The four derived-column assignments of `load_data_from_excel`. -/
def addDerived (df : DF) : DF :=
  deriveTicket (deriveTri (deriveMes (deriveAno df)))

/-- Model of `load_data_from_excel` on an in-memory table: date stage, renames,
required-column check (`if missing: raise ValueError(...)`, modelled as
the error branch), numeric coercions, derived columns.  When the renames
produce duplicate column labels (e.g. a sheet carrying both "Fecha de
contabilización" and "Fecha", or both "Quantity" and "Cantidad"), the
real code raises inside the later by-name accesses (`df["Fecha"].dt` on
a two-column frame, `pd.to_numeric` on a duplicated label) although
every required name is present; the cell model keeps those accesses
first-match total, so the claims about success and failure are fenced
by a `Nodup` hypothesis on the post-rename columns. -/
def load_data_from_excel (df : DF) : Except (List String) DF :=
  if missingOf (renameStage (dateStage df)).cols = [] then
    .ok (addDerived (coerceNums (renameStage (dateStage df))))
  else .error (missingOf (renameStage (dateStage df)).cols)

/-- Model of `load_data_from_excel` with the date fallback branch removed. -/
def load_noFallback (df : DF) : Except (List String) DF :=
  if missingOf (renameStage (dateStageNoFallback df)).cols = [] then
    .ok (addDerived (coerceNums (renameStage (dateStageNoFallback df))))
  else .error (missingOf (renameStage (dateStageNoFallback df)).cols)

/-!
Row-level view of a loaded table.  After `load_data_from_excel` succeeds
every record carries a parsed date and numeric `Cantidad` / `PrecioUnit`
/ `VentaCLP` values, while `Cliente` / `Vendedor` / `Producto` may still
be missing (`NaN`), which matters for `isin`, `str.contains` and
`groupby`.  The filtering and aggregation code of `src/app.py` (the
`mask`, the KPI block and `summary` / `ts`) is embedded over this record
type.
-/

/-- One canonical sales record of the loaded table. -/
structure Row where
  fecha : DateVal
  documento : String
  cliente : Option String
  vendedor : Option String
  producto : Option String
  cantidad : ℚ
  precioUnit : ℚ
  ventaCLP : ℚ
deriving DecidableEq

/-- Model of `TicketPromCLP` of one record:
`np.where(Cantidad > 0, VentaCLP / Cantidad, np.nan)`. -/
def ticket (r : Row) : Option ℚ :=
  if 0 < r.cantidad then some (r.ventaCLP / r.cantidad) else none

/-- Model of `series.isin(l)`: a missing value is never a member. -/
def isinOpt (x : Option String) (l : List String) : Bool :=
  match x with
  | some s => l.contains s
  | none => false

/-- Is the character one of Python's regular-expression
metacharacters? -/
def reMeta (c : Char) : Bool :=
  c == '.' || c == '^' || c == '$' || c == '*' || c == '+' || c == '?' ||
  c == '\x7b' || c == '\x7d' || c == '[' || c == ']' || c == '\\' || c == '|' ||
  c == '(' || c == ')'

/-- Does the pattern match at the head of the string?  Each pattern
character matches itself, except `.` which matches any character
(Python `re` semantics for the literal-plus-dot fragment). -/
def reMatchHere : List Char → List Char → Bool
  | [], _ => true
  | _ :: _, [] => false
  | p :: ps, c :: cs => (p == '.' || p == c) && reMatchHere ps cs

/-- Python `re.search` for the literal-plus-dot pattern fragment: does
the pattern match at some position of the string? -/
def reSearch (pat : List Char) : List Char → Bool
  | [] => reMatchHere pat []
  | c :: cs => reMatchHere pat (c :: cs) || reSearch pat cs

/-- The pattern uses no regex metacharacter except possibly `.` — the
fragment of pandas patterns the matcher models. -/
def dotFragment (pat : List Char) : Bool :=
  pat.all (fun c => !(reMeta c) || c == '.')

/-- The pattern uses no regex metacharacter at all; on this fragment
regex search coincides with literal substring containment. -/
def literalFragment (pat : List Char) : Bool :=
  pat.all (fun c => !(reMeta c))

/-- Model of `series.str.contains(pat, case=False, na=False)`: pandas
interprets the pattern as a regular expression (`regex=True` is the
default) and a missing value never matches.  The matcher covers the
fragment of patterns built from literal characters and the
metacharacter `.`; patterns using other metacharacters (quantifiers,
classes, groups — on which pandas may also raise `re.error`) are
outside the model, and the filter theorems are fenced to the modeled
fragment. -/
def containsCI (x : Option String) (pat : String) : Bool :=
  match x with
  | some s => reSearch (lowerL pat) (lowerL s)
  | none => false

/-- Python `s.strip()`: drop leading and trailing whitespace. -/
def pyStrip (s : String) : String :=
  ⟨((s.data.dropWhile Char.isWhitespace).reverse.dropWhile Char.isWhitespace).reverse⟩

/-- The filter `mask` of `src/app.py` (lines 290-296): date-range bound,
then `isin` constraints added only when the selections are non-empty,
then the product-substring constraint added only when the stripped text
is non-empty. -/
def maskRow (d1 d2 : DateVal) (selC selV : List String) (txt : String) (r : Row) : Bool :=
  let m := DateVal.leB d1 r.fecha && DateVal.leB r.fecha d2
  let m := if selC.isEmpty then m else m && isinOpt r.cliente selC
  let m := if selV.isEmpty then m else m && isinOpt r.vendedor selV
  if pyStrip txt == "" then m else m && containsCI r.producto (pyStrip txt)

/-- Model of `dff = df[mask]`: the filtered view. -/
def dffOf (rows : List Row) (d1 d2 : DateVal) (selC selV : List String) (txt : String) :
    List Row :=
  rows.filter (maskRow d1 d2 selC selV txt)

/-- Model of `dff["VentaCLP"].sum()`. -/
def sumVenta (rows : List Row) : ℚ := (rows.map Row.ventaCLP).sum

/-- Model of `dff["Cantidad"].sum()`. -/
def sumCantidad (rows : List Row) : ℚ := (rows.map Row.cantidad).sum

/-- The headline KPI `avg_ticket = dff["VentaCLP"].sum() /
max(dff["Cantidad"].sum(), 1)` (line 305 of `src/app.py`). -/
def avg_ticket (rows : List Row) : ℚ := sumVenta rows / max (sumCantidad rows) 1

/-- The group keys of `groupby`: the distinct non-missing key values
(pandas drops rows whose key is `NaN`).  The claims proved below do not
depend on the order of the groups, so first-occurrence order stands in
for pandas' sorted order. -/
def keysOf (kf : Row → Option String) (rows : List Row) : List String :=
  (rows.filterMap kf).dedup

/-- The rows of one group. -/
def groupOf (rows : List Row) (kf : Row → Option String) (k : String) : List Row :=
  rows.filter (fun r => kf r == some k)

/-- Model of `series.mean()` with pandas' `skipna` semantics: the mean of the
present values, missing when none are present. -/
def meanOpt (l : List ℚ) : Option ℚ :=
  if l.isEmpty then none else some (l.sum / l.length)

/-- One row of the `summary` aggregation (lines 457-465). -/
structure SummaryRow where
  key : String
  ventaCLP : ℚ
  unidades : ℚ
  docs : Nat
  clientes : Nat
  precioProm : Option ℚ
deriving DecidableEq

/-- The `.agg(...)` step of `summary`: per-group sums, `nunique` counts
and the (soon overwritten) mean of the per-record ratios. -/
def aggRow (rows : List Row) (kf : Row → Option String) (k : String) : SummaryRow :=
  let grp := groupOf rows kf k
  { key := k
    ventaCLP := sumVenta grp
    unidades := sumCantidad grp
    docs := (grp.map Row.documento).dedup.length
    clientes := (grp.filterMap Row.cliente).dedup.length
    precioProm := meanOpt (grp.filterMap ticket) }

/-- Line 465: `summary["PrecioPromCLP"] = np.where(summary["Unidades"] >
0, summary["VentaCLP"] / summary["Unidades"], np.nan)` — the mean of
ratios is overwritten by the ratio of sums. -/
def summaryOverwrite (s : SummaryRow) : SummaryRow :=
  { s with precioProm := if 0 < s.unidades then some (s.ventaCLP / s.unidades) else none }

/-- The `summary` table of `src/app.py` for a grouping key. -/
def summaryRows (rows : List Row) (kf : Row → Option String) : List SummaryRow :=
  (keysOf kf rows).map (fun k => summaryOverwrite (aggRow rows kf k))

/-- The five grouping dimensions offered by the dashboard. -/
inductive GroupKey where
  | mes
  | trimestre
  | cliente
  | vendedor
  | producto
deriving DecidableEq

/-- The grouping column of each dimension, as a key function (`Mes` and
`Trimestre` are derived from the always-present date and are never
missing; the other three may be missing). -/
def keyFun : GroupKey → Row → Option String
  | .mes => fun r => some (mesStr r.fecha)
  | .trimestre => fun r => some (triStr r.fecha)
  | .cliente => Row.cliente
  | .vendedor => Row.vendedor
  | .producto => Row.producto

/-- One row of the monthly trend table `ts` (lines 338-340). -/
structure TsRow where
  mes : String
  ventaCLP : ℚ
  unidades : ℚ
  docs : Nat
deriving DecidableEq

/-- The `ts` aggregation: group by `Mes`, sum `VentaCLP` and `Cantidad`,
count distinct `Documento`. -/
def tsRows (rows : List Row) : List TsRow :=
  (keysOf (keyFun .mes) rows).map (fun k =>
    let grp := groupOf rows (keyFun .mes) k
    ⟨k, sumVenta grp, sumCantidad grp, (grp.map Row.documento).dedup.length⟩)

/-!
Concrete tables and records used by the counterexamples and witnesses.
-/

/-- Header row of a raw table whose customer column is `"Cliente
Principal"` (claim C9's scenario). -/
def cols9 : List String :=
  ["Fecha", "Documento", "Cliente Principal", "Vendedor", "Producto",
   "Cantidad", "PrecioUnit", "VentaCLP"]

/-- A data row for the eight-column tables. -/
def row8 : List Cell :=
  [.date ⟨2025, 1, 5⟩, .text "D1", .text "Acme", .text "Ana", .text "Tire A",
   .num 0, .num 0, .num 0]

/-- The C9 scenario table. -/
def df9 : DF := ⟨cols9, [row8]⟩

/-- A table whose columns are exactly the required canonical names. -/
def canonDF : DF := ⟨requiredCols, [row8]⟩

/-- All ten canonical source-field names, in output order. -/
def canonicalCols : List String :=
  ["Fecha", "Documento", "CodCliente", "Cliente", "Vendedor", "ItemCode", "Producto",
   "Cantidad", "PrecioUnit", "VentaCLP"]

/-- A canonical ten-column data row. -/
def row10 : List Cell :=
  [.date ⟨2025, 1, 5⟩, .text "D1", .text "C001", .text "Acme", .text "Ana", .text "I1",
   .text "Tire A", .num 0, .num 0, .num 0]

/-- A required-columns table with one good row, one row whose date fails
to parse, and one row with a non-numeric quantity cell. -/
def dfW : DF :=
  ⟨requiredCols,
   [row8,
    [.text "not a date", .text "D2", .text "B", .text "Ana", .text "T",
     .num 0, .num 0, .num 0],
    [.date ⟨2025, 2, 1⟩, .text "D3", .text "B", .text "Ana", .text "T",
     .text "n/a", .num 0, .num 0]]⟩

/-- The table `dfW` after loading (the `.error` branch is unreachable
for it; the dummy value keeps the definition total). -/
def outW : DF :=
  match load_data_from_excel dfW with
  | .ok o => o
  | .error _ => ⟨[], []⟩

/-- A record with fractional quantity `1/2` (KPI counterexample). -/
def rHalf : Row :=
  ⟨⟨2025, 1, 5⟩, "D1", some "Acme", some "Ana", some "Tire A", 1/2, 200, 100⟩

/-- A record whose customer is missing but whose sale is `100`. -/
def rNone : Row :=
  ⟨⟨2025, 2, 10⟩, "D2", none, some "Ana", some "Tire B", 0, 0, 100⟩

/-- A record with a present customer (witness data). -/
def rA : Row :=
  ⟨⟨2025, 1, 5⟩, "D1", some "Acme", some "Ana", some "Tire A", 0, 0, 0⟩

/-- A record with a missing product description (witness data). -/
def rNoProd : Row :=
  ⟨⟨2025, 1, 5⟩, "D3", some "Acme", some "Ana", none, 0, 0, 0⟩

/-- A record whose description does not literally contain "22.5" but is
matched by that pattern under regex search (`.` matches the "X"). -/
def rDot : Row :=
  ⟨⟨2025, 1, 5⟩, "D9", some "Acme", some "Ana", some "Tire 22X5", 0, 0, 0⟩

/-- First record of the mean-vs-weighted example: ratio `10`. -/
def exR1 : Row :=
  ⟨⟨2025, 1, 5⟩, "D1", some "A", some "V", some "P", 1, 10, 10⟩

/-- Second record of the mean-vs-weighted example: ratio `1`. -/
def exR2 : Row :=
  ⟨⟨2025, 1, 6⟩, "D2", some "A", some "V", some "P", 3, 1, 3⟩

/-!
Helper lemmas about the resolver and the list combinators it is built
from.
-/

theorem findSome?_append_left_none {α β : Type _} {f : α → Option β} {l1 l2 : List α}
    (h : ∀ a ∈ l1, f a = none) : (l1 ++ l2).findSome? f = l2.findSome? f := by
  induction l1 with
  | nil => rfl
  | cons a t ih =>
      rw [List.cons_append, List.findSome?_cons, h a (by simp)]
      exact ih fun x hx => h x (by simp [hx])

theorem find?_append_left_none {α : Type _} {p : α → Bool} {l1 l2 : List α}
    (h : ∀ a ∈ l1, p a = false) : (l1 ++ l2).find? p = l2.find? p := by
  induction l1 with
  | nil => rfl
  | cons a t ih =>
      rw [List.cons_append, List.find?_cons_of_neg _ (by simp [h a (by simp)])]
      exact ih fun x hx => h x (by simp [hx])

theorem mem_of_getLastQ {α : Type _} {l : List α} {a : α} (h : l.getLast? = some a) :
    a ∈ l := by
  cases l with
  | nil => simp at h
  | cons x t =>
      rw [List.getLast?_eq_getLast_of_ne_nil (by simp)] at h
      exact Option.some_inj.mp h ▸ List.getLast_mem _

theorem lowerDictGet_eq_none {columns : List String} {key : List Char} :
    lowerDictGet columns key = none ↔ ∀ c ∈ columns, lowerL c ≠ key := by
  simp [lowerDictGet, List.getLast?_eq_none_iff, List.filter_eq_nil_iff]

theorem lowerDictGet_mem {columns : List String} {key : List Char} {c : String}
    (h : lowerDictGet columns key = some c) : c ∈ columns ∧ lowerL c = key := by
  have hmem := mem_of_getLastQ h
  have := List.mem_filter.mp hmem
  exact ⟨this.1, by simpa using this.2⟩

theorem lowerDictGet_isSome {columns : List String} {key : List Char}
    (h : ∃ c ∈ columns, lowerL c = key) : (lowerDictGet columns key).isSome = true := by
  cases hcase : lowerDictGet columns key with
  | some c => rfl
  | none =>
      obtain ⟨c, hc, hl⟩ := h
      exact absurd hl (lowerDictGet_eq_none.mp hcase c hc)

theorem safe_col_mem {cols cands : List String} {c : String}
    (h : safe_col cols cands = some c) : c ∈ cols := by
  unfold safe_col at h
  cases hf : cands.findSome? (fun cand => lowerDictGet cols (lowerL cand)) with
  | some c0 =>
      rw [hf] at h
      obtain ⟨cand, _, hget⟩ := List.exists_of_findSome?_eq_some hf
      exact (Option.some_inj.mp h) ▸ (lowerDictGet_mem hget).1
  | none =>
      rw [hf] at h
      obtain ⟨cand, _, hfind⟩ := List.exists_of_findSome?_eq_some h
      exact List.mem_of_find?_eq_some hfind

theorem safe_col_shape {cols cands : List String} {c : String}
    (h : safe_col cols cands = some c) :
    ∃ cand ∈ cands, lowerL c = lowerL cand ∨ containsSub (lowerL cand) (lowerL c) = true := by
  unfold safe_col at h
  cases hf : cands.findSome? (fun cand => lowerDictGet cols (lowerL cand)) with
  | some c0 =>
      rw [hf] at h
      obtain ⟨cand, hcand, hget⟩ := List.exists_of_findSome?_eq_some hf
      exact ⟨cand, hcand, Or.inl ((Option.some_inj.mp h) ▸ (lowerDictGet_mem hget).2)⟩
  | none =>
      rw [hf] at h
      obtain ⟨cand, hcand, hfind⟩ := List.exists_of_findSome?_eq_some h
      have hp := List.find?_some hfind
      exact ⟨cand, hcand, Or.inr hp⟩

theorem safe_col_eq_none {cols cands : List String} :
    safe_col cols cands = none ↔
      (∀ cand ∈ cands, ∀ c ∈ cols, lowerL c ≠ lowerL cand) ∧
      (∀ cand ∈ cands, ∀ c ∈ cols, containsSub (lowerL cand) (lowerL c) = false) := by
  unfold safe_col
  constructor
  · intro h
    cases hf : cands.findSome? (fun cand => lowerDictGet cols (lowerL cand)) with
    | some c0 => rw [hf] at h; exact absurd h (by simp)
    | none =>
        rw [hf] at h
        refine ⟨fun cand hcand c hc => lowerDictGet_eq_none.mp
          (List.findSome?_eq_none_iff.mp hf cand hcand) c hc, fun cand hcand c hc => ?_⟩
        have := List.find?_eq_none.mp (List.findSome?_eq_none_iff.mp h cand hcand) c hc
        simpa using this
  · rintro ⟨h1, h2⟩
    have hf : cands.findSome? (fun cand => lowerDictGet cols (lowerL cand)) = none :=
      List.findSome?_eq_none_iff.mpr fun cand hcand =>
        lowerDictGet_eq_none.mpr fun c hc => h1 cand hcand c hc
    rw [hf]
    exact List.findSome?_eq_none_iff.mpr fun cand hcand =>
      List.find?_eq_none.mpr fun c hc => by simp [h2 cand hcand c hc]

theorem fallbackLoop_eq_self (df : DF) (cs : List String)
    (h : ∀ c ∈ cs, containsSub (lowerL "fecha") (lowerL c) = false) :
    fallbackLoop df cs = df := by
  induction cs generalizing df with
  | nil => rfl
  | cons c t ih =>
      unfold fallbackLoop
      rw [h c (by simp)]
      exact ih df fun x hx => h x (by simp [hx])

/-- C10: the date-column fallback scan never adopts a column: whenever
the primary resolver fails on the date candidates, no raw column name
case-insensitively contains "fecha", so the fallback loop is dead code
and `load_data_from_excel` equals its fallback-free variant on every
table. -/
theorem c10_fallback_dead :
    (∀ (cols : List String) (c : String), safe_col cols dateCands = none → c ∈ cols →
        containsSub (lowerL "fecha") (lowerL c) = false) ∧
    (∀ df : DF, load_data_from_excel df = load_noFallback df) := by
  have key : ∀ (cols : List String) (c : String), safe_col cols dateCands = none → c ∈ cols →
      containsSub (lowerL "fecha") (lowerL c) = false := by
    intro cols c h hc
    have h2 := (safe_col_eq_none.mp h).2 "Fecha" (by simp [dateCands]) c hc
    have hlow : lowerL "Fecha" = lowerL "fecha" := by decide
    rwa [hlow] at h2
  refine ⟨key, fun df => ?_⟩
  unfold load_data_from_excel load_noFallback
  have hstage : dateStage df = dateStageNoFallback df := by
    unfold dateStage dateStageNoFallback
    cases hs : safe_col df.cols dateCands with
    | some cd => rfl
    | none => exact fallbackLoop_eq_self df df.cols fun c hc => key df.cols c hs hc
  rw [hstage]

/-- Witness for C10 at a concrete table: the date resolver fails on the
single column "Documento", and that column indeed does not contain
"fecha". -/
theorem c10_fallback_dead_witness :
    safe_col ["Documento"] dateCands = none ∧
    containsSub (lowerL "fecha") (lowerL "Documento") = false :=
  ⟨by decide, c10_fallback_dead.1 ["Documento"] "Documento" (by decide) (by decide)⟩

/-- C1: `_safe_col` first tries a case-insensitive exact match of each
candidate in priority order; only when no candidate matches exactly does
it try a case-insensitive substring match (candidates in order, and for
each candidate the raw columns in original order); when neither step
matches it returns no column, and any returned column is a raw column. -/
theorem c1_safe_col_resolution (cols cands : List String) :
    (∀ c, safe_col cols cands = some c → c ∈ cols) ∧
    (∀ l1 cand l2, cands = l1 ++ cand :: l2 →
      (∃ c ∈ cols, lowerL c = lowerL cand) →
      (∀ cand1 ∈ l1, ∀ c ∈ cols, lowerL c ≠ lowerL cand1) →
      ∃ c ∈ cols, safe_col cols cands = some c ∧ lowerL c = lowerL cand) ∧
    (∀ l1 cand l2 m1 c m2, cands = l1 ++ cand :: l2 → cols = m1 ++ c :: m2 →
      (∀ cand1 ∈ cands, ∀ c1 ∈ cols, lowerL c1 ≠ lowerL cand1) →
      containsSub (lowerL cand) (lowerL c) = true →
      (∀ cand1 ∈ l1, ∀ c1 ∈ cols, containsSub (lowerL cand1) (lowerL c1) = false) →
      (∀ c1 ∈ m1, containsSub (lowerL cand) (lowerL c1) = false) →
      safe_col cols cands = some c) ∧
    ((∀ cand ∈ cands, ∀ c ∈ cols,
        lowerL c ≠ lowerL cand ∧ containsSub (lowerL cand) (lowerL c) = false) →
      safe_col cols cands = none) := by
  refine ⟨fun c h => safe_col_mem h, ?_, ?_, ?_⟩
  · intro l1 cand l2 hc hex hpre
    subst hc
    have hl1 : ∀ a ∈ l1, lowerDictGet cols (lowerL a) = none := fun a ha =>
      lowerDictGet_eq_none.mpr fun c hc => hpre a ha c hc
    obtain ⟨c0, hc0⟩ := Option.isSome_iff_exists.mp (lowerDictGet_isSome hex)
    have heq : safe_col cols (l1 ++ cand :: l2) = some c0 := by
      unfold safe_col
      rw [findSome?_append_left_none hl1, List.findSome?_cons, hc0]
    exact ⟨c0, (lowerDictGet_mem hc0).1, heq, (lowerDictGet_mem hc0).2⟩
  · intro l1 cand l2 m1 c m2 hcands hcols hnoexact hsub hl1 hm1
    have hexact : cands.findSome? (fun cand => lowerDictGet cols (lowerL cand)) = none :=
      List.findSome?_eq_none_iff.mpr fun cand1 hcand1 =>
        lowerDictGet_eq_none.mpr fun c1 hc1 => hnoexact cand1 hcand1 c1 hc1
    have hfind : cols.find? (fun c1 => containsSub (lowerL cand) (lowerL c1)) = some c := by
      rw [hcols]
      rw [find?_append_left_none fun c1 hc1 => hm1 c1 hc1]
      exact List.find?_cons_of_pos _ hsub
    have hfuzzy : cands.findSome?
        (fun cand => cols.find? (fun c1 => containsSub (lowerL cand) (lowerL c1))) = some c := by
      rw [hcands]
      rw [findSome?_append_left_none fun cand1 hcand1 =>
        List.find?_eq_none.mpr fun c1 hc1 => by simp [hl1 cand1 hcand1 c1 hc1]]
      rw [List.findSome?_cons, hfind]
    unfold safe_col
    rw [hexact, hfuzzy]
  · intro h
    exact safe_col_eq_none.mpr
      ⟨fun cand hcand c hc => (h cand hcand c hc).1, fun cand hcand c hc => (h cand hcand c hc).2⟩

/-!
Claims about the filter and the aggregations.
-/

theorem reMatchHere_of_no_dot {pat : List Char} (h : ∀ c ∈ pat, (c == '.') = false) :
    ∀ s : List Char, reMatchHere pat s = pat.isPrefixOf s := by
  induction pat with
  | nil => intro s; cases s <;> rfl
  | cons p ps ih =>
      intro s
      cases s with
      | nil => rfl
      | cons c cs =>
          show ((p == '.' || p == c) && reMatchHere ps cs) = ((p == c) && ps.isPrefixOf cs)
          rw [h p (by simp), Bool.false_or, ih fun x hx => h x (by simp [hx])]

theorem reSearch_eq_containsSub {pat : List Char} (h : ∀ c ∈ pat, (c == '.') = false) :
    ∀ s : List Char, reSearch pat s = containsSub pat s := by
  intro s
  induction s with
  | nil =>
      show reMatchHere pat [] = pat.isEmpty
      cases pat <;> rfl
  | cons c cs ih =>
      show (reMatchHere pat (c :: cs) || reSearch pat cs) =
        (pat.isPrefixOf (c :: cs) || containsSub pat cs)
      rw [reMatchHere_of_no_dot h, ih]

/-- C4 (amended): for a search text within the modeled literal-plus-dot
pattern fragment, the filtered view is exactly the rows satisfying the
AND of the criteria — inclusive date range, customer membership unless
the customer selection is empty (likewise salesperson), and, when the
stripped text is non-empty, a case-insensitive pandas regex search of
the text against the product description, with missing descriptions
never matching.  For texts free of regex metacharacters the regex
search is exactly case-insensitive substring containment; it is not in
general: metacharacter patterns such as "22.5" also match descriptions
that do not literally contain the text. -/
theorem c4_filter_regex_semantics (rows : List Row) (d1 d2 : DateVal)
    (selC selV : List String) (txt : String) :
    (dotFragment (lowerL (pyStrip txt)) = true →
      dffOf rows d1 d2 selC selV txt = rows.filter (fun r =>
        (DateVal.leB d1 r.fecha && DateVal.leB r.fecha d2) &&
        (selC.isEmpty || isinOpt r.cliente selC) &&
        (selV.isEmpty || isinOpt r.vendedor selV) &&
        ((pyStrip txt == "") || containsCI r.producto (pyStrip txt)))) ∧
    (∀ p s : String, literalFragment (lowerL p) = true →
      reSearch (lowerL p) (lowerL s) = containsSub (lowerL p) (lowerL s)) ∧
    (∀ r ∈ rows, r.producto = none → (pyStrip txt == "") = false →
      r ∉ dffOf rows d1 d2 selC selV txt) := by
  refine ⟨fun _ => ?_, fun p s hp => ?_, ?_⟩
  · refine List.filter_congr fun r _ => ?_
    unfold maskRow
    cases hc : selC.isEmpty <;> cases hv : selV.isEmpty <;> cases ht : (pyStrip txt == "") <;>
      simp [hc, hv, ht, Bool.and_assoc]
  · refine reSearch_eq_containsSub (fun c hc => ?_) (lowerL s)
    have hmeta : reMeta c = false := by
      have := List.all_eq_true.mp hp c hc
      simpa using this
    by_cases hdot : (c == '.') = true
    · exfalso
      have hcdot : c = '.' := by simpa using hdot
      rw [hcdot] at hmeta
      exact absurd hmeta (by decide)
    · simpa using hdot
  · intro r hr hnone hts hmem
    have hmask := (List.mem_filter.mp hmem).2
    unfold maskRow at hmask
    rw [hts] at hmask
    simp [hnone, containsCI] at hmask

/-- Counterexample to C4 as stated: the search text "22.5" is accepted
by pandas' regex matching against the description "Tire 22X5" (the dot
matches "X"), so the record is in the filtered view although its
description does not contain the text — the view is not exactly the
containment subset. -/
theorem c4_regex_counterexample :
    containsSub (lowerL "22.5") (lowerL "Tire 22X5") = false ∧
    rDot.producto = some "Tire 22X5" ∧
    rDot ∈ dffOf [rDot] ⟨2025, 1, 1⟩ ⟨2025, 12, 31⟩ [] [] "22.5" :=
  ⟨by decide, rfl, by decide⟩

/-- Witness for C4 at a concrete input: the metacharacter-free search
text "tire" lies in the modeled fragment and the filter equation holds
for it. -/
theorem c4_filter_regex_semantics_witness :
    dotFragment (lowerL (pyStrip "tire")) = true ∧
    dffOf [rDot] ⟨2025, 1, 1⟩ ⟨2025, 12, 31⟩ [] [] "tire" =
      [rDot].filter (fun r =>
        (DateVal.leB ⟨2025, 1, 1⟩ r.fecha && DateVal.leB r.fecha ⟨2025, 12, 31⟩) &&
        (([] : List String).isEmpty || isinOpt r.cliente []) &&
        (([] : List String).isEmpty || isinOpt r.vendedor []) &&
        ((pyStrip "tire" == "") || containsCI r.producto (pyStrip "tire"))) :=
  ⟨by decide,
    (c4_filter_regex_semantics [rDot] ⟨2025, 1, 1⟩ ⟨2025, 12, 31⟩ [] [] "tire").1
      (by decide)⟩

/-- C5: in `summary`, the reported per-group average unit value is the
group's summed `VentaCLP` divided by the group's summed `Cantidad` when
the latter is positive (undefined otherwise) — the initially aggregated
mean of per-record ratios is overwritten, and at a concrete input the
two disagree. -/
theorem c5_weighted_average :
    (∀ (rows : List Row) (g : GroupKey) (k : String), k ∈ keysOf (keyFun g) rows →
      ∃ s ∈ summaryRows rows (keyFun g), s.key = k ∧
        s.precioProm =
          (if 0 < sumCantidad (groupOf rows (keyFun g) k) then
            some (sumVenta (groupOf rows (keyFun g) k) / sumCantidad (groupOf rows (keyFun g) k))
          else none)) ∧
    (aggRow [exR1, exR2] (keyFun .cliente) "A").precioProm ≠
      (summaryOverwrite (aggRow [exR1, exR2] (keyFun .cliente) "A")).precioProm := by
  constructor
  · intro rows g k hk
    exact ⟨summaryOverwrite (aggRow rows (keyFun g) k), List.mem_map.mpr ⟨k, hk, rfl⟩, rfl, rfl⟩
  · have hmean : (aggRow [exR1, exR2] (keyFun .cliente) "A").precioProm = some (11 / 2) := by
      simp [aggRow, groupOf, keyFun, exR1, exR2, meanOpt, ticket]
      norm_num
    have hsum : (summaryOverwrite (aggRow [exR1, exR2] (keyFun .cliente) "A")).precioProm =
        some (13 / 4) := by
      simp [aggRow, summaryOverwrite, groupOf, keyFun, exR1, exR2, sumVenta, sumCantidad]
      norm_num
    rw [hmean, hsum]
    intro h
    have := Option.some_inj.mp h
    norm_num at this

/-- Witness for C5 at a concrete input: the key "Acme" is a group key of
the one-record table and the weighted-average formula holds there. -/
theorem c5_weighted_average_witness :
    "Acme" ∈ keysOf (keyFun .cliente) [rA] ∧
    (∃ s ∈ summaryRows [rA] (keyFun .cliente), s.key = "Acme" ∧
      s.precioProm =
        (if 0 < sumCantidad (groupOf [rA] (keyFun .cliente) "Acme") then
          some (sumVenta (groupOf [rA] (keyFun .cliente) "Acme") /
            sumCantidad (groupOf [rA] (keyFun .cliente) "Acme"))
        else none)) :=
  ⟨by decide, c5_weighted_average.1 [rA] .cliente "Acme" (by decide)⟩

/-- C6 (amended): per record, `TicketPromCLP` is `VentaCLP / Cantidad`
when `Cantidad > 0` and undefined when `Cantidad = 0`; an empty filtered
view is not an error: its sums are `0` and its summary is empty; but the
headline KPI is `sum / max(sum_qty, 1)`, a total numeric quantity that
agrees with the ratio of sums only when the summed quantity is at least
one (and is the number `0`, not an undefined value, on an empty view). -/
theorem c6_ratio_guards :
    (∀ r : Row, (0 < r.cantidad → ticket r = some (r.ventaCLP / r.cantidad)) ∧
      (r.cantidad = 0 → ticket r = none)) ∧
    sumVenta [] = 0 ∧ sumCantidad [] = 0 ∧ avg_ticket [] = 0 ∧
    (∀ kf, summaryRows [] kf = []) ∧
    (∀ rows : List Row, 1 ≤ sumCantidad rows →
      avg_ticket rows = sumVenta rows / sumCantidad rows) := by
  refine ⟨fun r => ⟨fun h => by simp [ticket, h], fun h => by simp [ticket, h]⟩,
    by simp [sumVenta], by simp [sumCantidad], ?_,
    fun kf => by simp [summaryRows, keysOf],
    fun rows h => by rw [avg_ticket, max_eq_left h]⟩
  rw [avg_ticket]
  norm_num [sumVenta, sumCantidad]

/-- Counterexample to C6 as stated: the headline KPI is not the summed
`VentaCLP` over the summed `Cantidad` (they differ on a view whose
summed quantity is `1/2`), and on the empty view — whose summed quantity
is `0` — the KPI is the numeric value `0`, not an undefined value. -/
theorem c6_kpi_counterexample :
    sumCantidad ([] : List Row) = 0 ∧ avg_ticket ([] : List Row) = 0 ∧
    avg_ticket [rHalf] ≠ sumVenta [rHalf] / sumCantidad [rHalf] := by
  refine ⟨by simp [sumCantidad], ?_, ?_⟩
  · rw [avg_ticket]; norm_num [sumVenta, sumCantidad]
  · have hq : sumCantidad [rHalf] = 1 / 2 := by simp [sumCantidad, rHalf]
    have hv : sumVenta [rHalf] = 100 := by simp [sumVenta, rHalf]
    have hmax : max ((1 : ℚ) / 2) 1 = 1 := max_eq_right (by norm_num)
    rw [avg_ticket, hq, hv, hmax]
    norm_num

/-- Witness for C6 at a concrete record with positive quantity. -/
theorem c6_ratio_guards_witness :
    0 < exR1.cantidad ∧ ticket exR1 = some (exR1.ventaCLP / exR1.cantidad) :=
  ⟨by decide, (c6_ratio_guards.1 exR1).1 (by decide)⟩

/-!
Mass conservation of the groupby aggregation (claim C7).
-/

theorem sum_map_ite_eq_zero {ks : List String} {k0 : String} (h : k0 ∉ ks) (v : ℚ) :
    (ks.map (fun k => if k0 = k then v else 0)).sum = 0 := by
  induction ks with
  | nil => rfl
  | cons a t ih =>
      simp only [List.map_cons, List.sum_cons]
      rw [if_neg (by rintro rfl; exact h (by simp)), ih fun hm => h (by simp [hm]), add_zero]

theorem sum_map_ite_single {ks : List String} (hnd : ks.Nodup) {k0 : String} (hk : k0 ∈ ks)
    (v : ℚ) : (ks.map (fun k => if k0 = k then v else 0)).sum = v := by
  induction ks with
  | nil => simp at hk
  | cons a t ih =>
      simp only [List.map_cons, List.sum_cons]
      rcases List.mem_cons.mp hk with rfl | hmem
      · rw [if_pos rfl, sum_map_ite_eq_zero (List.nodup_cons.mp hnd).1 v, add_zero]
      · have hne : k0 ≠ a := fun h => (List.nodup_cons.mp hnd).1 (h ▸ hmem)
        rw [if_neg hne, ih (List.nodup_cons.mp hnd).2 hmem, zero_add]

theorem groupOf_cons {r : Row} {rs : List Row} {kf : Row → Option String} {k : String} :
    groupOf (r :: rs) kf k =
      if kf r == some k then r :: groupOf rs kf k else groupOf rs kf k := by
  simp [groupOf, List.filter_cons]

theorem sumVenta_cons {r : Row} {l : List Row} :
    sumVenta (r :: l) = r.ventaCLP + sumVenta l := by
  simp [sumVenta]

theorem sum_over_groups (kf : Row → Option String) (rows : List Row) (ks : List String)
    (hnd : ks.Nodup) (hcov : ∀ r ∈ rows, ∀ k, kf r = some k → k ∈ ks) :
    (ks.map (fun k => sumVenta (groupOf rows kf k))).sum =
      sumVenta (rows.filter (fun r => (kf r).isSome)) := by
  induction rows with
  | nil =>
      have h0 : ∀ k ∈ ks, sumVenta (groupOf [] kf k) = (0 : ℚ) := fun k _ => rfl
      rw [List.map_congr_left h0,
        show sumVenta (List.filter (fun r => (kf r).isSome) []) = 0 from rfl]
      exact List.sum_eq_zero (by simp)
  | cons r rs ih =>
      have hstep : ∀ k : String, sumVenta (groupOf (r :: rs) kf k) =
          (if kf r == some k then r.ventaCLP else 0) + sumVenta (groupOf rs kf k) := by
        intro k
        rw [groupOf_cons]
        by_cases hc : (kf r == some k) = true
        · rw [if_pos hc, if_pos hc, sumVenta_cons]
        · rw [if_neg hc, if_neg hc, zero_add]
      rw [List.map_congr_left fun k _ => hstep k, List.sum_map_add]
      have ihr := ih fun x hx k hk => hcov x (by simp [hx]) k hk
      cases hkr : kf r with
      | none =>
          have hz : ∀ k ∈ ks,
              (if ((none : Option String) == some k) = true then r.ventaCLP else 0) = (0 : ℚ) :=
            fun k _ => rfl
          have hzero : (List.map (fun (_ : String) => (0 : ℚ)) ks).sum = 0 :=
            List.sum_eq_zero (by simp)
          rw [List.map_congr_left hz, hzero, zero_add, ihr, List.filter_cons,
            if_neg (by rw [hkr]; simp)]
      | some k0 =>
          have hsingle : ∀ k ∈ ks,
              (if ((some k0 : Option String) == some k) = true then r.ventaCLP else 0) =
                (if k0 = k then r.ventaCLP else 0) := by
            intro k _
            by_cases h : k0 = k
            · rw [if_pos (by simp [h]), if_pos h]
            · rw [if_neg (by simp [h]), if_neg h]
          rw [List.map_congr_left hsingle,
            sum_map_ite_single hnd (hcov r (by simp) k0 hkr) r.ventaCLP, ihr,
            List.filter_cons, if_pos (by rw [hkr]; rfl), sumVenta_cons]

/-- C7 (amended): for every grouping key function, the sum of the
per-group `VentaCLP` aggregates equals the `VentaCLP` sum over the rows
whose grouping key is present (pandas `groupby` drops rows with a
missing key); when every record carries a key — in particular for the
monthly trend table `ts`, whose key is derived from the always-present
date — this is exact mass conservation over the whole filtered view. -/
theorem c7_mass_conservation :
    (∀ (rows : List Row) (kf : Row → Option String),
      ((summaryRows rows kf).map SummaryRow.ventaCLP).sum =
        sumVenta (rows.filter (fun r => (kf r).isSome))) ∧
    (∀ (rows : List Row) (kf : Row → Option String), (∀ r ∈ rows, (kf r).isSome = true) →
      ((summaryRows rows kf).map SummaryRow.ventaCLP).sum = sumVenta rows) ∧
    (∀ rows : List Row, ((tsRows rows).map TsRow.ventaCLP).sum = sumVenta rows) := by
  have base : ∀ (rows : List Row) (kf : Row → Option String),
      ((summaryRows rows kf).map SummaryRow.ventaCLP).sum =
        sumVenta (rows.filter (fun r => (kf r).isSome)) := by
    intro rows kf
    have hmap : (summaryRows rows kf).map SummaryRow.ventaCLP =
        (keysOf kf rows).map (fun k => sumVenta (groupOf rows kf k)) := by
      rw [summaryRows, List.map_map]
      exact List.map_congr_left fun k _ => rfl
    rw [hmap, sum_over_groups kf rows (keysOf kf rows) (List.nodup_dedup _)
      fun r hr k hk => List.mem_dedup.mpr (List.mem_filterMap.mpr ⟨r, hr, hk⟩)]
  refine ⟨base, fun rows kf h => ?_, fun rows => ?_⟩
  · rw [base, List.filter_eq_self.mpr h]
  · have hts : (tsRows rows).map TsRow.ventaCLP =
        (keysOf (keyFun .mes) rows).map (fun k => sumVenta (groupOf rows (keyFun .mes) k)) := by
      rw [tsRows, List.map_map]
      exact List.map_congr_left fun k _ => rfl
    have hfil : List.filter (fun r => (keyFun GroupKey.mes r).isSome) rows = rows :=
      List.filter_eq_self.mpr fun r _ => rfl
    rw [hts, sum_over_groups (keyFun .mes) rows (keysOf (keyFun .mes) rows)
      (List.nodup_dedup _)
      fun r hr k hk => List.mem_dedup.mpr (List.mem_filterMap.mpr ⟨r, hr, hk⟩),
      hfil]

/-- Counterexample to C7 as stated: a record whose customer is missing
is dropped by `groupby("Cliente")`, so the grouped total `0` differs
from the ungrouped total `100`. -/
theorem c7_missing_key_counterexample :
    ((summaryRows [rNone] (keyFun .cliente)).map SummaryRow.ventaCLP).sum ≠
      sumVenta [rNone] := by
  have h1 : summaryRows [rNone] (keyFun .cliente) = [] := by
    simp [summaryRows, keysOf, keyFun, rNone]
  rw [h1]
  simp [sumVenta, rNone]

/-- Witness for C7 at a concrete input where every record has a key. -/
theorem c7_mass_conservation_witness :
    (∀ r ∈ [rA], ((keyFun .cliente) r).isSome = true) ∧
    ((summaryRows [rA] (keyFun .cliente)).map SummaryRow.ventaCLP).sum = sumVenta [rA] :=
  ⟨by decide, c7_mass_conservation.2.1 [rA] (keyFun .cliente) (by decide)⟩

/-- Witness for C1 at concrete inputs: with columns `["Doc", "Vendedor
Principal"]` and the `Vendedor` candidate list, no candidate matches
exactly, and the substring step resolves "Vendedor Principal" via the
second candidate. -/
theorem c1_safe_col_resolution_witness :
    vendCands = ["SlpName"] ++ "Vendedor" :: ["Ejecutivo"] ∧
    (["Doc", "Vendedor Principal"] : List String) = ["Doc"] ++ "Vendedor Principal" :: [] ∧
    containsSub (lowerL "Vendedor") (lowerL "Vendedor Principal") = true ∧
    safe_col ["Doc", "Vendedor Principal"] vendCands = some "Vendedor Principal" :=
  ⟨by decide, by decide, by decide,
    (c1_safe_col_resolution ["Doc", "Vendedor Principal"] vendCands).2.2.1
      ["SlpName"] "Vendedor" ["Ejecutivo"] ["Doc"] "Vendedor Principal" []
      (by decide) (by decide) (by decide) (by decide) (by decide) (by decide)⟩

/-!
Lemmas about the rename stage and the required-column check.
-/

theorem dateStage_eq_of_none {df : DF} (h : safe_col df.cols dateCands = none) :
    dateStage df = df := by
  unfold dateStage
  rw [h]
  refine fallbackLoop_eq_self df df.cols fun c hc => ?_
  have h2 := (safe_col_eq_none.mp h).2 "Fecha" (by simp [dateCands]) c hc
  have hlow : lowerL "Fecha" = lowerL "fecha" := by decide
  rwa [hlow] at h2

theorem mem_assignments {cols : List String} {p : Option String × String}
    (h : p ∈ assignmentsOf cols) :
    ∃ cands ∈ ([docCands, codCliCands, cliCands, vendCands, itemCands, prodCands,
        cantCands, precioCands, ventaCands] : List (List String)),
      safe_col cols cands = p.1 := by
  simp only [assignmentsOf, List.mem_cons, List.not_mem_nil, or_false] at h
  rcases h with h | h | h | h | h | h | h | h | h <;> subst h <;>
    simp [docCands, codCliCands, cliCands, vendCands, itemCands, prodCands, cantCands,
      precioCands, ventaCands]

theorem renameMap_key_shape {cols : List String} {k v : String}
    (h : (k, v) ∈ renameMapOf cols) :
    ∃ cand, (lowerL k = lowerL cand ∨ containsSub (lowerL cand) (lowerL k) = true) ∧
      cand ∈ docCands ++ codCliCands ++ cliCands ++ vendCands ++ itemCands ++ prodCands ++
        cantCands ++ precioCands ++ ventaCands := by
  obtain ⟨p, hp, hk⟩ := List.mem_filterMap.mp h
  obtain ⟨k', hk', hpair⟩ := Option.map_eq_some'.mp hk
  obtain ⟨cands, hcands, hsafe⟩ := mem_assignments hp
  have hkk : k' = k := congrArg Prod.fst hpair
  subst hkk
  rw [hk'] at hsafe
  obtain ⟨cand, hcand, hshape⟩ := safe_col_shape hsafe
  refine ⟨cand, hshape, ?_⟩
  simp only [List.mem_cons, List.not_mem_nil, or_false] at hcands
  rcases hcands with h | h | h | h | h | h | h | h | h <;> subst h <;> simp [hcand]

theorem renameMap_values {cols : List String} {kv : String × String}
    (h : kv ∈ renameMapOf cols) :
    kv.2 ∈ (["Documento", "CodCliente", "Cliente", "Vendedor", "ItemCode", "Producto",
      "Cantidad", "PrecioUnit", "VentaCLP"] : List String) := by
  obtain ⟨p, hp, hk⟩ := List.mem_filterMap.mp h
  obtain ⟨k', _, hpair⟩ := Option.map_eq_some'.mp hk
  have hv : kv.2 = p.2 := (congrArg Prod.snd hpair).symm
  rw [hv]
  simp only [assignmentsOf, List.mem_cons, List.not_mem_nil, or_false] at hp
  rcases hp with h | h | h | h | h | h | h | h | h <;> subst h <;> simp

theorem lookup_eq_none_of {m : List (String × String)} {k : String}
    (h : ∀ p ∈ m, p.1 ≠ k) : m.lookup k = none := by
  induction m with
  | nil => rfl
  | cons p t ih =>
      obtain ⟨a, b⟩ := p
      rw [List.lookup_cons]
      have hne : (k == a) = false := by
        simp only [beq_eq_false_iff_ne, ne_eq]
        exact fun hk => h (a, b) (by simp) hk.symm
      rw [hne]
      exact ih fun q hq => h q (by simp [hq])

theorem fecha_keys_absent (cols : List String) :
    dictLookup (renameMapOf cols) "Fecha" = none := by
  refine lookup_eq_none_of fun p hp => ?_
  obtain ⟨k, v⟩ := p
  intro hk
  subst hk
  obtain ⟨cand, hshape, hcand⟩ := renameMap_key_shape (List.mem_reverse.mp hp)
  simp only [docCands, codCliCands, cliCands, vendCands, itemCands, prodCands, cantCands,
    precioCands, ventaCands, List.cons_append, List.nil_append, List.mem_cons,
    List.not_mem_nil, or_false] at hcand
  rcases hcand with rfl | rfl | rfl | rfl | rfl | rfl | rfl | rfl | rfl | rfl | rfl | rfl |
      rfl | rfl | rfl | rfl | rfl | rfl | rfl | rfl | rfl | rfl | rfl | rfl | rfl | rfl <;>
    revert hshape <;> decide

theorem lookup_mem {m : List (String × String)} {k v : String}
    (h : m.lookup k = some v) : (k, v) ∈ m := by
  induction m with
  | nil => simp [List.lookup] at h
  | cons p t ih =>
      obtain ⟨a, b⟩ := p
      rw [List.lookup_cons] at h
      cases hbeq : (k == a) with
      | true =>
          rw [hbeq] at h
          have hkv : b = v := by simpa using h
          have hka : k = a := by simpa using hbeq
          subst hkv; subst hka
          simp
      | false =>
          rw [hbeq] at h
          exact List.mem_cons_of_mem _ (ih h)

theorem mem_applyRename {x : String} {cols : List String} {m : List (String × String)}
    (h : x ∈ applyRename cols m) : (∃ kv ∈ m, kv.2 = x) ∨ x ∈ cols := by
  obtain ⟨c, hc, hx⟩ := List.mem_map.mp h
  cases hl : dictLookup m c with
  | some v =>
      rw [hl] at hx
      have hv : v = x := by simpa using hx
      exact Or.inl ⟨(c, v), List.mem_reverse.mp (lookup_mem hl), hv⟩
  | none =>
      rw [hl] at hx
      have hcx : c = x := by simpa using hx
      exact Or.inr (hcx ▸ hc)

theorem fecha_not_in_renamed_of_none {df : DF} (h : safe_col df.cols dateCands = none) :
    "Fecha" ∉ (renameStage (dateStage df)).cols := by
  rw [dateStage_eq_of_none h]
  intro hmem
  rcases mem_applyRename hmem with ⟨kv, hkv, hv⟩ | hcols
  · have hval := renameMap_values hkv
    rw [hv] at hval
    exact absurd hval (by decide)
  · exact absurd rfl ((safe_col_eq_none.mp h).1 "Fecha" (by simp [dateCands]) "Fecha" hcols)

theorem missingOf_eq_nil_iff {cols : List String} :
    missingOf cols = [] ↔ ∀ c ∈ requiredCols, c ∈ cols := by
  simp [missingOf, List.filter_eq_nil_iff]

theorem missingOf_ne_nil_iff {cols : List String} :
    missingOf cols ≠ [] ↔ ∃ c ∈ requiredCols, c ∉ cols := by
  rw [Ne, missingOf_eq_nil_iff]
  push_neg
  rfl

theorem mem_of_missingOf_nil {cols : List String} (h : missingOf cols = []) :
    ∀ c ∈ requiredCols, c ∈ cols := missingOf_eq_nil_iff.mp h

theorem load_eq_error_iff {df : DF} {m : List String} :
    load_data_from_excel df = .error m ↔
      missingOf (renameStage (dateStage df)).cols = m ∧ m ≠ [] := by
  unfold load_data_from_excel
  by_cases hmm : missingOf (renameStage (dateStage df)).cols = []
  · rw [if_pos hmm]
    constructor
    · intro h; cases h
    · rintro ⟨rfl, hne⟩; exact absurd hmm hne
  · rw [if_neg hmm]
    constructor
    · intro h
      exact ⟨Except.error.inj h, fun hme => hmm (hme ▸ Except.error.inj h)⟩
    · rintro ⟨rfl, _⟩; rfl

theorem load_eq_ok_iff {df : DF} {out : DF} :
    load_data_from_excel df = .ok out ↔
      missingOf (renameStage (dateStage df)).cols = [] ∧
      out = addDerived (coerceNums (renameStage (dateStage df))) := by
  unfold load_data_from_excel
  by_cases hmm : missingOf (renameStage (dateStage df)).cols = []
  · rw [if_pos hmm]
    constructor
    · intro h; exact ⟨hmm, (Except.ok.inj h).symm⟩
    · rintro ⟨_, rfl⟩; rfl
  · rw [if_neg hmm]
    constructor
    · intro h; cases h
    · rintro ⟨h, _⟩; exact absurd h hmm

theorem load_ok_safe_col_date {df : DF} {out : DF}
    (hok : load_data_from_excel df = .ok out) :
    ∃ cd, safe_col df.cols dateCands = some cd := by
  cases hs : safe_col df.cols dateCands with
  | some cd => exact ⟨cd, rfl⟩
  | none =>
      exfalso
      have hnil := (load_eq_ok_iff.mp hok).1
      exact fecha_not_in_renamed_of_none hs
        (mem_of_missingOf_nil hnil "Fecha" (by simp [requiredCols]))

/-- C2 (amended): for a table whose post-rename column labels are
pairwise distinct, `load_data_from_excel` fails exactly when some
required canonical column name is absent from the post-rename columns,
and the error lists exactly the absent required names in their fixed
order; a resolver-level failure alone does not make the load fail when
the canonical column is already present.  The distinctness hypothesis
fences off duplicate post-rename labels (e.g. a sheet with both "Fecha
de contabilización" and "Fecha", or both "Quantity" and "Cantidad"),
where the real code raises in the later `df[name].dt` /
`pd.to_numeric` accesses although every required name is present — the
same fence the C3 invariants use. -/
theorem c2_load_failure_characterization (df : DF)
    (_hdup : (renameStage (dateStage df)).cols.Nodup) :
    ((∃ m, load_data_from_excel df = .error m) ↔
      ∃ c ∈ requiredCols, c ∉ (renameStage (dateStage df)).cols) ∧
    (∀ m, load_data_from_excel df = .error m →
      m = requiredCols.filter (fun c => !((renameStage (dateStage df)).cols.contains c))) := by
  constructor
  · constructor
    · rintro ⟨m, hm⟩
      obtain ⟨hmm, hne⟩ := load_eq_error_iff.mp hm
      exact missingOf_ne_nil_iff.mp (hmm ▸ hne)
    · intro hex
      exact ⟨missingOf (renameStage (dateStage df)).cols,
        load_eq_error_iff.mpr ⟨rfl, missingOf_ne_nil_iff.mpr hex⟩⟩
  · intro m hm
    exact ((load_eq_error_iff.mp hm).1).symm

set_option maxHeartbeats 4000000 in
/-- Counterexample to C2 as stated: on a table whose columns are exactly
the eight required canonical names, the resolver leaves the customer
field unresolved (its candidate list does not contain "Cliente"), yet
the load succeeds — so "fails iff some required field is unresolved" is
false. -/
theorem c2_unresolved_yet_ok :
    safe_col requiredCols cliCands = none ∧
    ∃ out, load_data_from_excel canonDF = .ok out :=
  ⟨by decide, ⟨_, rfl⟩⟩

set_option maxHeartbeats 4000000 in
/-- Witness for C2 at a concrete table with only a date column: its
post-rename labels are distinct, the load fails, and the error lists
exactly the seven missing required names. -/
theorem c2_load_failure_witness :
    (renameStage (dateStage ⟨["Fecha"], []⟩)).cols.Nodup ∧
    load_data_from_excel ⟨["Fecha"], []⟩ =
      .error ["Documento", "Cliente", "Vendedor", "Producto", "Cantidad", "PrecioUnit",
        "VentaCLP"] ∧
    (["Documento", "Cliente", "Vendedor", "Producto", "Cantidad", "PrecioUnit",
        "VentaCLP"] : List String) =
      requiredCols.filter
        (fun c => !((renameStage (dateStage ⟨["Fecha"], []⟩)).cols.contains c)) :=
  ⟨by decide, rfl,
    (c2_load_failure_characterization ⟨["Fecha"], []⟩ (by decide)).2 _ rfl⟩

set_option maxHeartbeats 4000000 in
/-- C9 (amended): a raw table headed by "Cliente Principal" does not
resolve the customer field — no customer-name candidate ("Nombre de
cliente/proveedor", "Nombre de cliente", "CardName") occurs in that
header — so, whatever the rows, the load fails naming "Cliente" as the
missing required column. -/
theorem c9_cliente_principal (rows : List (List Cell)) :
    load_data_from_excel ⟨cols9, rows⟩ = .error ["Cliente"] := rfl

set_option maxHeartbeats 4000000 in
/-- Counterexample to C9 as stated: on the concrete scenario table the
resolver returns no column for the customer field (in particular not
"Cliente Principal"), and the load errors out. -/
theorem c9_counterexample :
    safe_col cols9 cliCands = none ∧ safe_col cols9 cliCands ≠ some "Cliente Principal" ∧
    load_data_from_excel df9 = .error ["Cliente"] :=
  ⟨by decide, by decide, rfl⟩

/-!
Cell-level and index-level helper lemmas for the pipeline claims.
-/

theorem isDate_iff {c : Cell} : c.isDate = true ↔ ∃ d, c = .date d := by
  cases c <;> simp [Cell.isDate]

theorem isNum_iff {c : Cell} : c.isNum = true ↔ ∃ q, c = .num q := by
  cases c <;> simp [Cell.isNum]

theorem isDate_coerceDate (c : Cell) : (coerceDateCell c).isDate = c.isDate := by
  cases c <;> rfl

theorem isNum_coerceNum (c : Cell) : (coerceNumCell c).isNum = true := rfl

theorem cellAt_set_ne {r : List Cell} {i j : Nat} (h : j ≠ i) (v : Cell) :
    cellAt (r.set j v) i = cellAt r i := by
  simp [cellAt, List.getD_eq_getElem?_getD, List.getElem?_set_ne h]

theorem cellAt_set_self {r : List Cell} {i : Nat} (h : i < r.length) (v : Cell) :
    cellAt (r.set i v) i = v := by
  simp [cellAt, List.getD_eq_getElem?_getD, List.getElem?_set_self h]

theorem cellAt_append_left {r t : List Cell} {i : Nat} (h : i < r.length) :
    cellAt (r ++ t) i = cellAt r i := by
  simp [cellAt, List.getD_eq_getElem?_getD, List.getElem?_append, h]

theorem set_cellAt_self : ∀ (r : List Cell) (i : Nat), i < r.length →
    r.set i (cellAt r i) = r
  | [], i, h => by simp at h
  | _ :: _, 0, _ => rfl
  | a :: t, n + 1, h => by
      show a :: t.set n (cellAt (a :: t) (n + 1)) = a :: t
      rw [show cellAt (a :: t) (n + 1) = cellAt t n from rfl,
        set_cellAt_self t n (Nat.lt_of_succ_lt_succ h)]

theorem findIdx?_spec {p : String → Bool} :
    ∀ {l : List String} {i : Nat}, l.findIdx? p = some i →
      ∃ x, l[i]? = some x ∧ p x = true := by
  intro l
  induction l with
  | nil => intro i h; simp [List.findIdx?] at h
  | cons a t ih =>
      intro i h
      rw [List.findIdx?_cons] at h
      by_cases hp : p a = true
      · rw [if_pos hp] at h
        obtain rfl : (0 : Nat) = i := Option.some_inj.mp h
        exact ⟨a, by simp, hp⟩
      · rw [if_neg hp, List.findIdx?_succ] at h
        cases ht : t.findIdx? p with
        | none => rw [ht] at h; simp at h
        | some j =>
            rw [ht] at h
            obtain rfl : j + 1 = i := by simpa using h
            obtain ⟨x, hx, hpx⟩ := ih ht
            exact ⟨x, by simpa using hx, hpx⟩

theorem findIdx?_mem_exists {l : List String} {x : String} (h : x ∈ l) :
    ∃ i, l.findIdx? (· = x) = some i := by
  induction l with
  | nil => simp at h
  | cons a t ih =>
      by_cases ha : a = x
      · exact ⟨0, by rw [List.findIdx?_cons, if_pos (by simp [ha])]⟩
      · have hm : x ∈ t := by
          rcases List.mem_cons.mp h with rfl | hm
          · exact absurd rfl ha
          · exact hm
        obtain ⟨i, hi⟩ := ih hm
        refine ⟨i + 1, ?_⟩
        rw [List.findIdx?_cons, if_neg (by simp [ha]), List.findIdx?_succ, hi]
        rfl

theorem findIdx?_of_nodup : ∀ {l : List String}, l.Nodup → ∀ {i : Nat} {x : String},
    l[i]? = some x → l.findIdx? (· = x) = some i := by
  intro l
  induction l with
  | nil => intro _ i x hx; simp at hx
  | cons a t ih =>
      intro hnd i x hx
      cases i with
      | zero =>
          have hax : a = x := by simpa using hx
          rw [List.findIdx?_cons, if_pos (by simp [hax])]
      | succ n =>
          have hx' : t[n]? = some x := by simpa using hx
          have hxt : x ∈ t := by
            have := List.getElem?_eq_some.mp hx'
            obtain ⟨hlt, hval⟩ := this
            exact hval ▸ List.getElem_mem _
          have hax : ¬(a = x) := fun h => (List.nodup_cons.mp hnd).1 (h ▸ hxt)
          rw [List.findIdx?_cons, if_neg (by simp [hax]), List.findIdx?_succ,
            ih (List.nodup_cons.mp hnd).2 hx']
          rfl

theorem findIdx?_append_left : ∀ {l : List String} {l' : List String} {p : String → Bool}
    {i : Nat}, l.findIdx? p = some i → (l ++ l').findIdx? p = some i := by
  intro l
  induction l with
  | nil => intro l' p i h; simp [List.findIdx?] at h
  | cons a t ih =>
      intro l' p i h
      rw [List.findIdx?_cons] at h
      rw [List.cons_append, List.findIdx?_cons]
      by_cases hp : p a = true
      · rw [if_pos hp] at h ⊢; exact h
      · rw [if_neg hp] at h ⊢
        rw [List.findIdx?_succ] at h ⊢
        cases ht : t.findIdx? p with
        | none => rw [ht] at h; simp at h
        | some j =>
            rw [ht] at h
            rw [ih ht]
            exact h

theorem getElem?_some_lt {l : List String} {i : Nat} {x : String} (h : l[i]? = some x) :
    i < l.length :=
  (List.getElem?_eq_some.mp h).1

theorem setColFn_none_rows {d : DF} {n : String} {f : List Cell → Cell}
    (hn : d.idxOf n = none) :
    (DF.setColFn d n f).rows = d.rows.map (fun r => r ++ [f r]) := by
  unfold DF.setColFn
  rw [hn]

theorem setColFn_none_cols {d : DF} {n : String} {f : List Cell → Cell}
    (hn : d.idxOf n = none) :
    (DF.setColFn d n f).cols = d.cols ++ [n] := by
  unfold DF.setColFn
  rw [hn]

theorem take_append_one {r : List Cell} {x : Cell} {n : Nat} (h : n ≤ r.length) :
    (r ++ [x]).take n = r.take n :=
  List.take_append_of_le_length h

theorem map_take_of_append4 (rows : List (List Cell)) (k : Nat)
    (hk : ∀ r ∈ rows, r.length = k) (A B C D : List Cell → Cell) :
    ((((rows.map (fun r => r ++ [A r])).map (fun r => r ++ [B r])).map
        (fun r => r ++ [C r])).map (fun r => r ++ [D r])).map (fun r => r.take k) = rows := by
  simp only [List.map_map]
  refine (List.map_congr_left fun r hr => ?_).trans (List.map_id rows)
  have hlen := hk r hr
  simp only [Function.comp]
  rw [take_append_one (by simp [hlen]), take_append_one (by simp [hlen]),
    take_append_one (by simp [hlen]), take_append_one (by simp [hlen]), ← hlen,
    List.take_length]
  rfl

set_option maxHeartbeats 4000000 in
/-- C8 (amended): normalizing a table whose columns are exactly the ten
canonical source-field names (with parsed dates and numeric amount
cells) succeeds and leaves every canonical column — values and order —
unchanged, only appending the four derived columns.  The mechanism,
however, is not that every canonical name matches itself exactly:
`Documento`, `Vendedor`, `ItemCode`, `Cantidad` and the date column do,
`PrecioUnit` and `VentaCLP` resolve to themselves only through the
substring step, and `Cliente`, `CodCliente`, `Producto` are resolved to
no column at all and survive only because the required-name check sees
them already present. -/
theorem c8_idempotence (rows : List (List Cell))
    (h : ∀ r ∈ rows, r.length = 10 ∧ (cellAt r 0).isDate = true ∧
      (cellAt r 7).isNum = true ∧ (cellAt r 8).isNum = true ∧ (cellAt r 9).isNum = true) :
    ∃ out, load_data_from_excel ⟨canonicalCols, rows⟩ = .ok out ∧
      out.cols = canonicalCols ++ ["Año", "Mes", "Trimestre", "TicketPromCLP"] ∧
      out.rows.map (fun r => r.take 10) = rows := by
  have hrow0 : ∀ r ∈ rows, r.set 0 (coerceDateCell (cellAt r 0)) = r := by
    intro r hr
    obtain ⟨hlen, hdate0, _, _, _⟩ := h r hr
    obtain ⟨d, hd⟩ := isDate_iff.mp hdate0
    rw [hd]
    show r.set 0 (Cell.date d) = r
    rw [← hd]
    exact set_cellAt_self r 0 (by rw [hlen]; norm_num)
  have hA : DF.coerceDateByName ⟨canonicalCols, rows⟩ "Fecha" = ⟨canonicalCols, rows⟩ := by
    show DF.mapColAt ⟨canonicalCols, rows⟩ 0 coerceDateCell = ⟨canonicalCols, rows⟩
    unfold DF.mapColAt
    congr 1
    calc rows.map (fun r => r.set 0 (coerceDateCell (cellAt r 0)))
        = rows.map id := List.map_congr_left fun r hr => hrow0 r hr
      _ = rows := List.map_id rows
  have hB : DF.filterDateByName ⟨canonicalCols, rows⟩ "Fecha" = ⟨canonicalCols, rows⟩ := by
    show (⟨canonicalCols, rows.filter (fun r => (cellAt r 0).isDate)⟩ : DF) =
      ⟨canonicalCols, rows⟩
    congr 1
    exact List.filter_eq_self.mpr fun r hr => (h r hr).2.1
  have hC : DF.renameOne ⟨canonicalCols, rows⟩ "Fecha" "Fecha" = ⟨canonicalCols, rows⟩ := by
    unfold DF.renameOne
    congr 1
  have hdate : dateStage ⟨canonicalCols, rows⟩ = ⟨canonicalCols, rows⟩ := by
    show ((((⟨canonicalCols, rows⟩ : DF).coerceDateByName "Fecha").filterDateByName
      "Fecha").renameOne "Fecha" "Fecha") = ⟨canonicalCols, rows⟩
    rw [hA, hB, hC]
  have hren : renameStage ⟨canonicalCols, rows⟩ = ⟨canonicalCols, rows⟩ := by
    show (⟨applyRename canonicalCols (renameMapOf canonicalCols), rows⟩ : DF) =
      ⟨canonicalCols, rows⟩
    congr 1
  have hq : DF.coerceNumByName ⟨canonicalCols, rows⟩ "Cantidad" = ⟨canonicalCols, rows⟩ := by
    show DF.mapColAt ⟨canonicalCols, rows⟩ 7 coerceNumCell = ⟨canonicalCols, rows⟩
    unfold DF.mapColAt
    congr 1
    refine (List.map_congr_left fun r hr => ?_).trans (List.map_id rows)
    obtain ⟨hlen, _, h7, _, _⟩ := h r hr
    obtain ⟨q, hq7⟩ := isNum_iff.mp h7
    rw [hq7]
    show r.set 7 (Cell.num q) = id r
    rw [← hq7]
    exact set_cellAt_self r 7 (by rw [hlen]; norm_num)
  have hp : DF.coerceNumByName ⟨canonicalCols, rows⟩ "PrecioUnit" = ⟨canonicalCols, rows⟩ := by
    show DF.mapColAt ⟨canonicalCols, rows⟩ 8 coerceNumCell = ⟨canonicalCols, rows⟩
    unfold DF.mapColAt
    congr 1
    refine (List.map_congr_left fun r hr => ?_).trans (List.map_id rows)
    obtain ⟨hlen, _, _, h8, _⟩ := h r hr
    obtain ⟨q, hq8⟩ := isNum_iff.mp h8
    rw [hq8]
    show r.set 8 (Cell.num q) = id r
    have hself := set_cellAt_self r 8 (by rw [hlen]; norm_num)
    rw [hq8] at hself
    exact hself
  have hv : DF.coerceNumByName ⟨canonicalCols, rows⟩ "VentaCLP" = ⟨canonicalCols, rows⟩ := by
    show DF.mapColAt ⟨canonicalCols, rows⟩ 9 coerceNumCell = ⟨canonicalCols, rows⟩
    unfold DF.mapColAt
    congr 1
    refine (List.map_congr_left fun r hr => ?_).trans (List.map_id rows)
    obtain ⟨hlen, _, _, _, h9⟩ := h r hr
    obtain ⟨q, hq9⟩ := isNum_iff.mp h9
    rw [hq9]
    show r.set 9 (Cell.num q) = id r
    have hself := set_cellAt_self r 9 (by rw [hlen]; norm_num)
    rw [hq9] at hself
    exact hself
  have hcoerce : coerceNums ⟨canonicalCols, rows⟩ = ⟨canonicalCols, rows⟩ := by
    unfold coerceNums
    rw [hq, hp, hv]
  refine ⟨addDerived (coerceNums ⟨canonicalCols, rows⟩),
    load_eq_ok_iff.mpr ⟨by rw [hdate, hren]; show missingOf canonicalCols = []; decide,
      by rw [hdate, hren]⟩, ?_, ?_⟩
  · rw [hcoerce]
    rfl
  · rw [hcoerce]
    exact map_take_of_append4 rows 10 (fun r hr => (h r hr).1) _ _ _ _

/-- Counterexample to C8's mechanism clause: on the canonical column
list the resolver does not match the canonical name "Cliente" to itself
— it resolves the customer field to no column at all, because no
customer-name candidate equals or occurs in "Cliente". -/
theorem c8_self_match_counterexample :
    safe_col canonicalCols cliCands = none ∧
    safe_col canonicalCols cliCands ≠ some "Cliente" :=
  ⟨by decide, by decide⟩

/-- Witness for C8 at a concrete one-row canonical table. -/
theorem c8_idempotence_witness :
    (∀ r ∈ [row10], r.length = 10 ∧ (cellAt r 0).isDate = true ∧
      (cellAt r 7).isNum = true ∧ (cellAt r 8).isNum = true ∧ (cellAt r 9).isNum = true) ∧
    (∃ out, load_data_from_excel ⟨canonicalCols, [row10]⟩ = .ok out ∧
      out.cols = canonicalCols ++ ["Año", "Mes", "Trimestre", "TicketPromCLP"] ∧
      out.rows.map (fun r => r.take 10) = [row10]) :=
  ⟨by decide, c8_idempotence [row10] (by decide)⟩

/-!
Invariant preservation through the tail of the pipeline (claim C3).
-/

theorem setColFn_good {d : DF} {n : String} {f : List Cell → Cell} {i0 qi pi vi : Nat}
    (hg : GoodDF d i0 qi pi vi)
    (hn : n ∉ (["Fecha", "Cantidad", "PrecioUnit", "VentaCLP"] : List String)) :
    GoodDF (DF.setColFn d n f) i0 qi pi vi := by
  obtain ⟨hrect, hf, hq, hp, hv, hcells⟩ := hg
  obtain ⟨xf, hxf, hxf'⟩ := findIdx?_spec hf
  obtain ⟨xq, hxq, hxq'⟩ := findIdx?_spec hq
  obtain ⟨xp, hxp, hxp'⟩ := findIdx?_spec hp
  obtain ⟨xv, hxv, hxv'⟩ := findIdx?_spec hv
  have hxf2 : d.cols[i0]? = some "Fecha" := by
    rwa [show xf = "Fecha" from by simpa using hxf'] at hxf
  have hxq2 : d.cols[qi]? = some "Cantidad" := by
    rwa [show xq = "Cantidad" from by simpa using hxq'] at hxq
  have hxp2 : d.cols[pi]? = some "PrecioUnit" := by
    rwa [show xp = "PrecioUnit" from by simpa using hxp'] at hxp
  have hxv2 : d.cols[vi]? = some "VentaCLP" := by
    rwa [show xv = "VentaCLP" from by simpa using hxv'] at hxv
  unfold DF.setColFn
  cases hidx : d.idxOf n with
  | some j =>
      obtain ⟨xn, hxn, hxn'⟩ := findIdx?_spec hidx
      have hxn2 : d.cols[j]? = some n := by
        rwa [show xn = n from by simpa using hxn'] at hxn
      have hjf : j ≠ i0 := by
        intro e
        rw [e, hxf2] at hxn2
        exact hn (by simp [show n = "Fecha" from by simpa using hxn2.symm])
      have hjq : j ≠ qi := by
        intro e
        rw [e, hxq2] at hxn2
        exact hn (by simp [show n = "Cantidad" from by simpa using hxn2.symm])
      have hjp : j ≠ pi := by
        intro e
        rw [e, hxp2] at hxn2
        exact hn (by simp [show n = "PrecioUnit" from by simpa using hxn2.symm])
      have hjv : j ≠ vi := by
        intro e
        rw [e, hxv2] at hxn2
        exact hn (by simp [show n = "VentaCLP" from by simpa using hxn2.symm])
      refine ⟨?_, hf, hq, hp, hv, ?_⟩
      · intro r hr
        obtain ⟨r0, hr0, rfl⟩ := List.mem_map.mp hr
        simpa [List.length_set] using hrect r0 hr0
      · intro r hr
        obtain ⟨r0, hr0, rfl⟩ := List.mem_map.mp hr
        obtain ⟨hc1, hc2, hc3, hc4⟩ := hcells r0 hr0
        exact ⟨by rwa [cellAt_set_ne hjf], by rwa [cellAt_set_ne hjq],
          by rwa [cellAt_set_ne hjp], by rwa [cellAt_set_ne hjv]⟩
  | none =>
      have hflt : i0 < d.cols.length := getElem?_some_lt hxf2
      have hqlt : qi < d.cols.length := getElem?_some_lt hxq2
      have hplt : pi < d.cols.length := getElem?_some_lt hxp2
      have hvlt : vi < d.cols.length := getElem?_some_lt hxv2
      refine ⟨?_, findIdx?_append_left hf, findIdx?_append_left hq, findIdx?_append_left hp,
        findIdx?_append_left hv, ?_⟩
      · intro r hr
        obtain ⟨r0, hr0, rfl⟩ := List.mem_map.mp hr
        simp [hrect r0 hr0]
      · intro r hr
        obtain ⟨r0, hr0, rfl⟩ := List.mem_map.mp hr
        obtain ⟨hc1, hc2, hc3, hc4⟩ := hcells r0 hr0
        have hl := hrect r0 hr0
        exact ⟨by rwa [cellAt_append_left (by rw [hl]; exact hflt)],
          by rwa [cellAt_append_left (by rw [hl]; exact hqlt)],
          by rwa [cellAt_append_left (by rw [hl]; exact hplt)],
          by rwa [cellAt_append_left (by rw [hl]; exact hvlt)]⟩

theorem deriveAno_good {d : DF} {i0 qi pi vi : Nat} (h : GoodDF d i0 qi pi vi) :
    GoodDF (deriveAno d) i0 qi pi vi := setColFn_good h (by decide)

theorem deriveMes_good {d : DF} {i0 qi pi vi : Nat} (h : GoodDF d i0 qi pi vi) :
    GoodDF (deriveMes d) i0 qi pi vi := setColFn_good h (by decide)

theorem deriveTri_good {d : DF} {i0 qi pi vi : Nat} (h : GoodDF d i0 qi pi vi) :
    GoodDF (deriveTri d) i0 qi pi vi := setColFn_good h (by decide)

theorem deriveTicket_good {d : DF} {i0 qi pi vi : Nat} (h : GoodDF d i0 qi pi vi) :
    GoodDF (deriveTicket d) i0 qi pi vi := setColFn_good h (by decide)

theorem addDerived_good {d : DF} {i0 qi pi vi : Nat} (h : GoodDF d i0 qi pi vi) :
    GoodDF (addDerived d) i0 qi pi vi :=
  deriveTicket_good (deriveTri_good (deriveMes_good (deriveAno_good h)))

theorem setColFn_rows_length (d : DF) (n : String) (f : List Cell → Cell) :
    (DF.setColFn d n f).rows.length = d.rows.length := by
  unfold DF.setColFn
  cases d.idxOf n <;> simp

theorem addDerived_rows_length (d : DF) :
    (addDerived d).rows.length = d.rows.length := by
  unfold addDerived deriveTicket deriveTri deriveMes deriveAno
  rw [setColFn_rows_length, setColFn_rows_length, setColFn_rows_length, setColFn_rows_length]

theorem coerceNumByName_eq (d : DF) (name : String) (j : Nat)
    (hj : d.cols.findIdx? (· = name) = some j) :
    d.coerceNumByName name =
      ⟨d.cols, d.rows.map (fun r => r.set j (coerceNumCell (cellAt r j)))⟩ := by
  unfold DF.coerceNumByName
  rw [show d.idxOf name = some j from hj]
  rfl

set_option maxHeartbeats 2000000 in
/-- C3: when `load_data_from_excel` succeeds on a rectangular table
(whose post-rename column names are distinct), the output has exactly
one row per input row whose resolved date cell parses — rows with
unparseable dates are excluded entirely — and every output record
carries a parsed date in `Fecha` and numeric values in `Cantidad`,
`PrecioUnit` and `VentaCLP` (failed numeric coercions having been
replaced by `0` by `coerceNumCell`), so no missing or non-numeric value
survives in those fields. -/
theorem c3_normalized_invariants (df : DF) (hrect : df.Rect)
    (hnd : (renameStage (dateStage df)).cols.Nodup) :
    ∀ out, load_data_from_excel df = .ok out →
      (∃ cd i, safe_col df.cols dateCands = some cd ∧ df.cols.findIdx? (· = cd) = some i ∧
        out.rows.length = df.rows.countP (fun r => (cellAt r i).isDate)) ∧
      (∀ r ∈ out.rows,
        (cellAt r ((out.idxOf "Fecha").getD 0)).isDate = true ∧
        (cellAt r ((out.idxOf "Cantidad").getD 0)).isNum = true ∧
        (cellAt r ((out.idxOf "PrecioUnit").getD 0)).isNum = true ∧
        (cellAt r ((out.idxOf "VentaCLP").getD 0)).isNum = true) := by
  intro out hok
  obtain ⟨hmiss, hout⟩ := load_eq_ok_iff.mp hok
  obtain ⟨cd, hcd⟩ := load_ok_safe_col_date hok
  obtain ⟨i0, hi0⟩ := findIdx?_mem_exists (safe_col_mem hcd)
  obtain ⟨xcd, hxcd, hxcd'⟩ := findIdx?_spec hi0
  have hcols_i0 : df.cols[i0]? = some cd := by
    rwa [show xcd = cd from by simpa using hxcd'] at hxcd
  have hi0lt : i0 < df.cols.length := getElem?_some_lt hcols_i0
  have hA : df.coerceDateByName cd =
      ⟨df.cols, df.rows.map (fun r => r.set i0 (coerceDateCell (cellAt r i0)))⟩ := by
    unfold DF.coerceDateByName
    rw [show df.idxOf cd = some i0 from hi0]
    rfl
  have hB : DF.filterDateByName
      ⟨df.cols, df.rows.map (fun r => r.set i0 (coerceDateCell (cellAt r i0)))⟩ cd =
      ⟨df.cols, (df.rows.map (fun r => r.set i0 (coerceDateCell (cellAt r i0)))).filter
        (fun r => (cellAt r i0).isDate)⟩ := by
    unfold DF.filterDateByName
    rw [show (⟨df.cols, df.rows.map (fun r => r.set i0 (coerceDateCell (cellAt r i0)))⟩ :
      DF).idxOf cd = some i0 from hi0]
  have hstage : renameStage (dateStage df) =
      ⟨applyRename (df.cols.map (fun c => if c = cd then "Fecha" else c))
          (renameMapOf (df.cols.map (fun c => if c = cd then "Fecha" else c))),
        (df.rows.map (fun r => r.set i0 (coerceDateCell (cellAt r i0)))).filter
          (fun r => (cellAt r i0).isDate)⟩ := by
    unfold dateStage
    rw [hcd]
    show renameStage (((df.coerceDateByName cd).filterDateByName cd).renameOne cd "Fecha") = _
    rw [hA, hB]
    rfl
  have hmiss2 : missingOf (applyRename (df.cols.map (fun c => if c = cd then "Fecha" else c))
      (renameMapOf (df.cols.map (fun c => if c = cd then "Fecha" else c)))) = [] := by
    rw [hstage] at hmiss
    exact hmiss
  have hnd2 : (applyRename (df.cols.map (fun c => if c = cd then "Fecha" else c))
      (renameMapOf (df.cols.map (fun c => if c = cd then "Fecha" else c)))).Nodup := by
    rw [hstage] at hnd
    exact hnd
  have hcols1_i0 : (df.cols.map (fun c => if c = cd then "Fecha" else c))[i0]? = some "Fecha" := by
    rw [List.getElem?_map, hcols_i0]
    simp
  have hcols2_i0 : (applyRename (df.cols.map (fun c => if c = cd then "Fecha" else c))
      (renameMapOf (df.cols.map (fun c => if c = cd then "Fecha" else c))))[i0]? =
      some "Fecha" := by
    unfold applyRename
    rw [List.getElem?_map, hcols1_i0]
    simp [fecha_keys_absent]
  have hidxF : (applyRename (df.cols.map (fun c => if c = cd then "Fecha" else c))
      (renameMapOf (df.cols.map (fun c => if c = cd then "Fecha" else c)))).findIdx?
      (· = "Fecha") = some i0 := findIdx?_of_nodup hnd2 hcols2_i0
  obtain ⟨qi, hqi⟩ := findIdx?_mem_exists
    (mem_of_missingOf_nil hmiss2 "Cantidad" (by simp [requiredCols]))
  obtain ⟨pi, hpi⟩ := findIdx?_mem_exists
    (mem_of_missingOf_nil hmiss2 "PrecioUnit" (by simp [requiredCols]))
  obtain ⟨vi, hvi⟩ := findIdx?_mem_exists
    (mem_of_missingOf_nil hmiss2 "VentaCLP" (by simp [requiredCols]))
  obtain ⟨xq, hxq, hxq'⟩ := findIdx?_spec hqi
  obtain ⟨xp, hxp, hxp'⟩ := findIdx?_spec hpi
  obtain ⟨xv, hxv, hxv'⟩ := findIdx?_spec hvi
  have hcols2_qi := hxq
  rw [show xq = "Cantidad" from by simpa using hxq'] at hcols2_qi
  have hcols2_pi := hxp
  rw [show xp = "PrecioUnit" from by simpa using hxp'] at hcols2_pi
  have hcols2_vi := hxv
  rw [show xv = "VentaCLP" from by simpa using hxv'] at hcols2_vi
  have hlen2 : (applyRename (df.cols.map (fun c => if c = cd then "Fecha" else c))
      (renameMapOf (df.cols.map (fun c => if c = cd then "Fecha" else c)))).length =
      df.cols.length := by
    simp [applyRename]
  have hqlt : qi < df.cols.length := hlen2 ▸ getElem?_some_lt hcols2_qi
  have hplt : pi < df.cols.length := hlen2 ▸ getElem?_some_lt hcols2_pi
  have hvlt : vi < df.cols.length := hlen2 ▸ getElem?_some_lt hcols2_vi
  have hne_qf : qi ≠ i0 := by
    intro e; rw [e, hcols2_i0] at hcols2_qi; simp at hcols2_qi
  have hne_pf : pi ≠ i0 := by
    intro e; rw [e, hcols2_i0] at hcols2_pi; simp at hcols2_pi
  have hne_vf : vi ≠ i0 := by
    intro e; rw [e, hcols2_i0] at hcols2_vi; simp at hcols2_vi
  have hne_pq : pi ≠ qi := by
    intro e; rw [e, hcols2_qi] at hcols2_pi; simp at hcols2_pi
  have hne_vq : vi ≠ qi := by
    intro e; rw [e, hcols2_qi] at hcols2_vi; simp at hcols2_vi
  have hne_vp : vi ≠ pi := by
    intro e; rw [e, hcols2_pi] at hcols2_vi; simp at hcols2_vi
  have hrectB : ∀ r ∈ (df.rows.map (fun r => r.set i0 (coerceDateCell (cellAt r i0)))).filter
      (fun r => (cellAt r i0).isDate), r.length = df.cols.length := by
    intro r hr
    obtain ⟨r0, hr0, rfl⟩ := List.mem_map.mp (List.mem_of_mem_filter hr)
    rw [List.length_set]
    exact hrect r0 hr0
  have hc1 : DF.coerceNumByName
      ⟨applyRename (df.cols.map (fun c => if c = cd then "Fecha" else c))
          (renameMapOf (df.cols.map (fun c => if c = cd then "Fecha" else c))),
        (df.rows.map (fun r => r.set i0 (coerceDateCell (cellAt r i0)))).filter
          (fun r => (cellAt r i0).isDate)⟩ "Cantidad" =
      ⟨applyRename (df.cols.map (fun c => if c = cd then "Fecha" else c))
          (renameMapOf (df.cols.map (fun c => if c = cd then "Fecha" else c))),
        ((df.rows.map (fun r => r.set i0 (coerceDateCell (cellAt r i0)))).filter
          (fun r => (cellAt r i0).isDate)).map
            (fun r => r.set qi (coerceNumCell (cellAt r qi)))⟩ :=
    coerceNumByName_eq _ _ _ hqi
  have hc2 : DF.coerceNumByName
      ⟨applyRename (df.cols.map (fun c => if c = cd then "Fecha" else c))
          (renameMapOf (df.cols.map (fun c => if c = cd then "Fecha" else c))),
        ((df.rows.map (fun r => r.set i0 (coerceDateCell (cellAt r i0)))).filter
          (fun r => (cellAt r i0).isDate)).map
            (fun r => r.set qi (coerceNumCell (cellAt r qi)))⟩ "PrecioUnit" =
      ⟨applyRename (df.cols.map (fun c => if c = cd then "Fecha" else c))
          (renameMapOf (df.cols.map (fun c => if c = cd then "Fecha" else c))),
        (((df.rows.map (fun r => r.set i0 (coerceDateCell (cellAt r i0)))).filter
          (fun r => (cellAt r i0).isDate)).map
            (fun r => r.set qi (coerceNumCell (cellAt r qi)))).map
              (fun r => r.set pi (coerceNumCell (cellAt r pi)))⟩ :=
    coerceNumByName_eq _ _ _ hpi
  have hc3 : DF.coerceNumByName
      ⟨applyRename (df.cols.map (fun c => if c = cd then "Fecha" else c))
          (renameMapOf (df.cols.map (fun c => if c = cd then "Fecha" else c))),
        (((df.rows.map (fun r => r.set i0 (coerceDateCell (cellAt r i0)))).filter
          (fun r => (cellAt r i0).isDate)).map
            (fun r => r.set qi (coerceNumCell (cellAt r qi)))).map
              (fun r => r.set pi (coerceNumCell (cellAt r pi)))⟩ "VentaCLP" =
      ⟨applyRename (df.cols.map (fun c => if c = cd then "Fecha" else c))
          (renameMapOf (df.cols.map (fun c => if c = cd then "Fecha" else c))),
        ((((df.rows.map (fun r => r.set i0 (coerceDateCell (cellAt r i0)))).filter
          (fun r => (cellAt r i0).isDate)).map
            (fun r => r.set qi (coerceNumCell (cellAt r qi)))).map
              (fun r => r.set pi (coerceNumCell (cellAt r pi)))).map
                (fun r => r.set vi (coerceNumCell (cellAt r vi)))⟩ :=
    coerceNumByName_eq _ _ _ hvi
  have hcoe : coerceNums
      ⟨applyRename (df.cols.map (fun c => if c = cd then "Fecha" else c))
          (renameMapOf (df.cols.map (fun c => if c = cd then "Fecha" else c))),
        (df.rows.map (fun r => r.set i0 (coerceDateCell (cellAt r i0)))).filter
          (fun r => (cellAt r i0).isDate)⟩ =
      ⟨applyRename (df.cols.map (fun c => if c = cd then "Fecha" else c))
          (renameMapOf (df.cols.map (fun c => if c = cd then "Fecha" else c))),
        ((((df.rows.map (fun r => r.set i0 (coerceDateCell (cellAt r i0)))).filter
          (fun r => (cellAt r i0).isDate)).map
            (fun r => r.set qi (coerceNumCell (cellAt r qi)))).map
              (fun r => r.set pi (coerceNumCell (cellAt r pi)))).map
                (fun r => r.set vi (coerceNumCell (cellAt r vi)))⟩ := by
    unfold coerceNums
    rw [hc1, hc2, hc3]
  have hgood : GoodDF
      ⟨applyRename (df.cols.map (fun c => if c = cd then "Fecha" else c))
          (renameMapOf (df.cols.map (fun c => if c = cd then "Fecha" else c))),
        ((((df.rows.map (fun r => r.set i0 (coerceDateCell (cellAt r i0)))).filter
          (fun r => (cellAt r i0).isDate)).map
            (fun r => r.set qi (coerceNumCell (cellAt r qi)))).map
              (fun r => r.set pi (coerceNumCell (cellAt r pi)))).map
                (fun r => r.set vi (coerceNumCell (cellAt r vi)))⟩ i0 qi pi vi := by
    refine ⟨?_, hidxF, hqi, hpi, hvi, ?_⟩
    · intro r hr
      obtain ⟨r2, hr2, rfl⟩ := List.mem_map.mp hr
      obtain ⟨r1, hr1, rfl⟩ := List.mem_map.mp hr2
      obtain ⟨r0, hr0, rfl⟩ := List.mem_map.mp hr1
      show (((r0.set qi _).set pi _).set vi _).length = _
      rw [List.length_set, List.length_set, List.length_set, hrectB r0 hr0]
      exact hlen2.symm
    · intro r hr
      obtain ⟨r2, hr2, rfl⟩ := List.mem_map.mp hr
      obtain ⟨r1, hr1, rfl⟩ := List.mem_map.mp hr2
      obtain ⟨r0, hr0, rfl⟩ := List.mem_map.mp hr1
      have hl0 : r0.length = df.cols.length := hrectB r0 hr0
      have hdate0 : (cellAt r0 i0).isDate = true := (List.mem_filter.mp hr0).2
      refine ⟨?_, ?_, ?_, ?_⟩
      · rw [cellAt_set_ne hne_vf, cellAt_set_ne hne_pf, cellAt_set_ne hne_qf]
        exact hdate0
      · rw [cellAt_set_ne hne_vq, cellAt_set_ne hne_pq,
          cellAt_set_self (by rw [hl0]; exact hqlt)]
        exact isNum_coerceNum _
      · rw [cellAt_set_ne hne_vp,
          cellAt_set_self (by rw [List.length_set, hl0]; exact hplt)]
        exact isNum_coerceNum _
      · rw [cellAt_set_self
          (by rw [List.length_set, List.length_set, hl0]; exact hvlt)]
        exact isNum_coerceNum _
  have hout2 : out = addDerived
      ⟨applyRename (df.cols.map (fun c => if c = cd then "Fecha" else c))
          (renameMapOf (df.cols.map (fun c => if c = cd then "Fecha" else c))),
        ((((df.rows.map (fun r => r.set i0 (coerceDateCell (cellAt r i0)))).filter
          (fun r => (cellAt r i0).isDate)).map
            (fun r => r.set qi (coerceNumCell (cellAt r qi)))).map
              (fun r => r.set pi (coerceNumCell (cellAt r pi)))).map
                (fun r => r.set vi (coerceNumCell (cellAt r vi)))⟩ := by
    rw [hout, hstage, hcoe]
  subst hout2
  have hgoodOut := addDerived_good hgood
  obtain ⟨_, hgf, hgq, hgp, hgv, hcells⟩ := hgoodOut
  constructor
  · refine ⟨cd, i0, hcd, hi0, ?_⟩
    rw [addDerived_rows_length]
    show (((((df.rows.map (fun r => r.set i0 (coerceDateCell (cellAt r i0)))).filter
      (fun r => (cellAt r i0).isDate)).map
        (fun r => r.set qi (coerceNumCell (cellAt r qi)))).map
          (fun r => r.set pi (coerceNumCell (cellAt r pi)))).map
            (fun r => r.set vi (coerceNumCell (cellAt r vi)))).length =
      df.rows.countP (fun r => (cellAt r i0).isDate)
    rw [List.length_map, List.length_map, List.length_map,
      ← List.countP_eq_length_filter, List.countP_map, List.countP_eq_length_filter,
      List.countP_eq_length_filter]
    congr 1
    refine List.filter_congr fun r hr => ?_
    show (cellAt (r.set i0 (coerceDateCell (cellAt r i0))) i0).isDate = (cellAt r i0).isDate
    rw [cellAt_set_self (by rw [hrect r hr]; exact hi0lt), isDate_coerceDate]
  · intro r hr
    simp only [DF.idxOf]
    rw [hgf, hgq, hgp, hgv]
    simp only [Option.getD_some]
    exact hcells r hr

/-- Witness for C3 at a concrete three-row table (one good row, one row
with an unparseable date, one row with a non-numeric quantity). -/
theorem c3_normalized_invariants_witness :
    dfW.Rect ∧ (renameStage (dateStage dfW)).cols.Nodup ∧
    load_data_from_excel dfW = .ok outW ∧
    ((∃ cd i, safe_col dfW.cols dateCands = some cd ∧
        dfW.cols.findIdx? (· = cd) = some i ∧
        outW.rows.length = dfW.rows.countP (fun r => (cellAt r i).isDate)) ∧
      (∀ r ∈ outW.rows,
        (cellAt r ((outW.idxOf "Fecha").getD 0)).isDate = true ∧
        (cellAt r ((outW.idxOf "Cantidad").getD 0)).isNum = true ∧
        (cellAt r ((outW.idxOf "PrecioUnit").getD 0)).isNum = true ∧
        (cellAt r ((outW.idxOf "VentaCLP").getD 0)).isNum = true)) :=
  ⟨by decide, by decide, rfl,
    c3_normalized_invariants dfW (by decide) (by decide) outW rfl⟩

end Insamar
